import Mathlib

/-
  Verification of the recalls-platform conversation/tool-dispatch core.

  Shallow embedding of:
    - src/third_party/openfda/transforms.py  (normalize_recall)
    - src/third_party/openfda/client.py      (OpenFDAClient, abstracted as an oracle)
    - src/ask/tools.py                       (search_recalls_handler, get_recall_stats_handler)
    - src/ask/services.py                    (run_conversation_with_gemini: intent correction,
                                              conversation loop, fallback rules)

  Python JSON-ish values are modelled by the inductive `Val`; dictionaries are
  association lists `List (String × Val)` preserving insertion order, exactly as
  CPython dicts do.  The remote HTTP client and the LLM are oracles supplied as
  parameters (`Client`, a response function `Nat → Turn`); the system clock and
  calendar arithmetic (datetime.utcnow / timedelta / strftime) are likewise an
  oracle (`Clock`), since only their formatted outputs flow through the code.
  Each handler returns, besides its result, the ordered list of remote calls it
  issued, making "number of remote calls" a provable quantity.
-/

namespace Recalls

/-- Python/JSON values occurring in the data paths under verification
    (`None`, strings, integers, lists, dicts).  Floats and booleans do not
    occur on any path a claim exercises and are omitted. -/
inductive Val where
  | none : Val
  | str : String → Val
  | int : Int → Val
  | list : List Val → Val
  | obj : List (String × Val) → Val
deriving Repr

/-- Python truthiness for `Val` (`bool(x)`). -/
def truthy : Val → Bool
  | .none => false
  | .str s => !s.isEmpty
  | .int n => n != 0
  | .list l => !l.isEmpty
  | .obj l => !l.isEmpty

/-- `a or b` on values. -/
def pyOr (a b : Val) : Val := if truthy a then a else b

/-- Association-list lookup: `d[k]` for our dict model (first binding wins,
    as in a Python dict where each key occurs once). -/
def alookup (l : List (String × Val)) (k : String) : Option Val :=
  (l.find? (fun p => p.1 == k)).map (·.2)

/-- `d.get(k)` (default `None`); a non-dict receiver never occurs on the
    verified paths, it yields `None` here. -/
def vGet (v : Val) (k : String) : Val :=
  match v with
  | .obj l => (alookup l k).getD Val.none
  | _ => Val.none

/-- `d.get(k, default)`. -/
def vGetD (v : Val) (k : String) (d : Val) : Val :=
  match v with
  | .obj l => (alookup l k).getD d
  | _ => d

/-- Numeric value of a digit string. -/
def digitsToNat (l : List Char) : Nat :=
  l.foldl (fun acc c => acc * 10 + (c.toNat - '0'.toNat)) 0

/-- `int(v)` at the sites where an exception cannot escape: the `limit`
    coercion (tools.py lines 20–23 catch it and install exactly this
    default), the per-year totals (inside the `try` of lines 124–130, whose
    handler records exactly this default), and the remote-shaped values
    (metadata totals, bucket counts) that are integers under the §6 remote
    contract.  The uncaught `int()` sites are modelled by `pyIntE` instead. -/
def pyInt (v : Val) (d : Int) : Int :=
  match v with
  | .int n => n
  | .str s =>
      match s.data with
      | [] => d
      | '-' :: rest => if rest ≠ [] && rest.all Char.isDigit
                       then -(Int.ofNat (digitsToNat rest)) else d
      | l => if l.all Char.isDigit then Int.ofNat (digitsToNat l) else d
  | _ => d

/-- `int(v)` at the argument sites with no enclosing try (`skip` at
    tools.py line 29, `topFirmsLimit`/`bottomFirmsLimit` at lines 88/90):
    a non-coercible value raises ValueError/TypeError, uncaught.  (Numeric
    strings with surrounding whitespace or a leading `+`, which CPython also
    accepts, are not recognized; no verified input carries them.) -/
def pyIntE (v : Val) : Except Unit Int :=
  match v with
  | .int n => .ok n
  | .str s =>
      match s.data with
      | [] => .error ()
      | '-' :: rest => if rest ≠ [] && rest.all Char.isDigit
                       then .ok (-(Int.ofNat (digitsToNat rest))) else .error ()
      | l => if l.all Char.isDigit then .ok (Int.ofNat (digitsToNat l)) else .error ()
  | _ => .error ()

/-- `firm_name or (args.get("firm") or "")`-style read (services.py line 90)
    where the value is used without `.strip()`: Python forwards a truthy
    non-string unchanged (it would only raise later, inside a handler); the
    verified paths constrain this argument to strings or falsy values, under
    which this total read is exact. -/
def pyGetStr (args : List (String × Val)) (k : String) : String :=
  match alookup args k with
  | some (.str s) => s
  | _ => ""

/-- `(args.get(k) or "").strip()`-style read at the tool-handler sites with
    no enclosing try (tools.py lines 10, 53, 59): a present truthy non-string
    raises AttributeError on `.strip()`; a falsy or absent value reads as
    `""`. -/
def pyGetStrE (args : List (String × Val)) (k : String) : Except Unit String :=
  match alookup args k with
  | Option.none => .ok ""
  | some v =>
      if truthy v then
        match v with
        | .str s => .ok s
        | _ => .error ()
      else .ok ""

-- ---------------------------------------------------------------------------
-- Python string primitives, re-implemented structurally on `List Char` so that
-- every concrete evaluation reduces in the kernel.
-- ---------------------------------------------------------------------------

/-- `pat` is an initial segment of `text`. -/
def headMatch : List Char → List Char → Bool
  | [], _ => true
  | _ :: _, [] => false
  | p :: ps, c :: cs => p == c && headMatch ps cs

/-- Python `pat in s` on char lists. -/
def hasSubChars (pat : List Char) : List Char → Bool
  | [] => pat.isEmpty
  | c :: cs => headMatch pat (c :: cs) || hasSubChars pat cs

/-- Python substring test `pat in s`. -/
def hasSub (s pat : String) : Bool := hasSubChars pat.data s.data

/-- Remainder after the first occurrence of `pat`
    (Python `s.split(pat, 1)[1]`, defined when `pat in s`). -/
def afterFirstChars (pat : List Char) : List Char → Option (List Char)
  | [] => if pat.isEmpty then some [] else Option.none
  | c :: cs =>
      if headMatch pat (c :: cs) then some ((c :: cs).drop pat.length)
      else afterFirstChars pat cs

/-- Python `s.split(pat, 1)[1]`; empty when `pat` does not occur (the code
    only reaches this under a guard that `pat in s`). -/
def afterFirst (s pat : String) : String :=
  ⟨(afterFirstChars pat.data s.data).getD []⟩

/-- Python `s.lower()` (ASCII — all question text on the verified paths). -/
def pyLower (s : String) : String := ⟨s.data.map Char.toLower⟩

/-- Python `s.strip()`. -/
def pyStripP (p : Char → Bool) (s : String) : String :=
  ⟨((s.data.dropWhile p).reverse.dropWhile p).reverse⟩

/-- Python `s.strip()` (whitespace). -/
def pyStrip (s : String) : String := pyStripP Char.isWhitespace s

/-- Python `s.strip('"\'')`. -/
def pyStripQuotes (s : String) : String :=
  pyStripP (fun c => c == '"' || c == '\'') s

/-- Python `s.rstrip('s')`. -/
def pyRstripS (s : String) : String :=
  ⟨(s.data.reverse.dropWhile (· == 's')).reverse⟩

/-- Python `s.split()` (runs of whitespace, no empty tokens), accumulator form
    so the definition is structural. -/
def splitWsAcc : List Char → List Char → List (List Char)
  | cur, [] => if cur.isEmpty then [] else [cur.reverse]
  | cur, c :: cs =>
      if c.isWhitespace then
        if cur.isEmpty then splitWsAcc [] cs else cur.reverse :: splitWsAcc [] cs
      else splitWsAcc (c :: cur) cs

/-- Python `s.split()`. -/
def pySplitWs (s : String) : List String := (splitWsAcc [] s.data).map (⟨·⟩)

/-- Python `str.isdigit()` (ASCII). -/
def pyIsDigit (s : String) : Bool := !s.isEmpty && s.data.all Char.isDigit

/-- Python `"sep".join(l)`. -/
def pyJoin (sep : String) (l : List String) : String :=
  match l with
  | [] => ""
  | x :: xs => xs.foldl (fun acc y => acc ++ sep ++ y) x

/-- Stable insertion into an ascending-sorted list: the new element goes after
    existing elements with an equal key (CPython `sorted` is stable). -/
def stableInsert (key : α → Int) (x : α) : List α → List α
  | [] => [x]
  | y :: ys => if key x < key y then x :: y :: ys else y :: stableInsert key x ys

/-- Stable ascending sort by an integer key — the semantics of Python
    `sorted(l, key=...)`. -/
def stableSortBy (key : α → Int) (l : List α) : List α :=
  l.foldl (fun acc x => stableInsert key x acc) []

-- ---------------------------------------------------------------------------
-- Remote data client (src/third_party/openfda/client.py), as an oracle.
-- ---------------------------------------------------------------------------

/-- The argument tuple a handler passes to
    `OpenFDAClient.search_enforcements(query, classification, limit, skip, sort)`. -/
structure SearchCall where
  query : Option String
  classification : Option String
  limit : Int
  skip : Int
  sort : Option String
deriving Repr, DecidableEq

/-- A remote call issued through the client: either a record search or a
    faceted count (`count_buckets(field, search)`). -/
inductive RemoteCall where
  | search : SearchCall → RemoteCall
  | count : String → Option String → RemoteCall
deriving Repr

/-- The remote client.  `search` returns the parsed JSON of
    `search_enforcements` (a `Val`); `countBuckets` returns what
    `count_buckets` returns, namely `data.get("results", []) or []`.
    `.error ()` models a raised requests/HTTP exception (`UpstreamError`). -/
structure Client where
  search : SearchCall → Except Unit Val
  countBuckets : String → Option String → Except Unit (List Val)

-- ---------------------------------------------------------------------------
-- src/third_party/openfda/transforms.py
-- ---------------------------------------------------------------------------

/-- `record.get(key, "") or ""` — the per-field rule of `normalize_recall`. -/
def nrmField (record : List (String × Val)) (key : String) : Val :=
  pyOr ((alookup record key).getD (Val.str "")) (Val.str "")

/-- `normalize_recall(record)`: the normalized dict, in the literal's key
    order.  The `firmName` field alone uses the two-level default
    `record.get("firm_name", record.get("recalling_firm", "")) or ""`. -/
def normalize_recall (record : List (String × Val)) : List (String × Val) :=
  [("id", nrmField record "recall_number"),
   ("classification", nrmField record "classification"),
   ("productName", nrmField record "product_description"),
   ("firmName",
     pyOr ((alookup record "firm_name").getD
             ((alookup record "recalling_firm").getD (Val.str "")))
          (Val.str "")),
   ("status", nrmField record "status"),
   ("recallInitiationDate", nrmField record "recall_initiation_date"),
   ("state", nrmField record "state"),
   ("reasonForRecall", nrmField record "reason_for_recall"),
   ("city", nrmField record "city")]

-- ---------------------------------------------------------------------------
-- src/ask/tools.py — search_recalls_handler
-- ---------------------------------------------------------------------------

/-- `data.get("results", []) or []` as a list of raw records (`Val.obj`s are
    the only shape the remote contract produces; anything else normalizes from
    an effectively empty record). -/
def resultsOf (data : Val) : List Val :=
  match pyOr (vGetD data "results" (Val.list [])) (Val.list []) with
  | .list l => l
  | _ => []

/-- A raw result entry as a record dict (remote contract: always an object). -/
def asRecord : Val → List (String × Val)
  | .obj l => l
  | _ => []

/-- tools.py lines 9–32: the search call `search_recalls_handler` builds from
    its arguments (firm clause composition, limit coercion and clamping to
    [1,50], skip, sort); a truthy non-string firm or a non-coercible truthy
    skip raises here, before any network activity.  (Non-string `query`/`sort`
    values would be forwarded by Python and stringified at the HTTP layer;
    the oracle's call type keeps the strings every verified path passes.) -/
def searchArgsCall (args : List (String × Val)) : Except Unit SearchCall :=
  let query0 : Option String :=
    match alookup args "query" with
    | some (.str s) => some s
    | _ => Option.none
  match pyGetStrE args "firm" with
  | .error e => .error e
  | .ok firmRaw =>
    let firm := pyStrip firmRaw
    let query : Option String :=
      if firm ≠ "" then
        let firmClause := "recalling_firm:\"" ++ firm ++ "\""
        match query0 with
        | some q => if q ≠ "" then some ("(" ++ q ++ ") AND " ++ firmClause)
                    else some firmClause
        | Option.none => some firmClause
      else query0
    let classification : Option String :=
      match alookup args "classification" with
      | some (.str s) => some s
      | _ => Option.none
    let limit0 := pyInt ((alookup args "limit").getD (Val.int 10)) 10
    let limit := if limit0 < 1 then 1 else if limit0 > 50 then 50 else limit0
    match pyIntE (pyOr ((alookup args "skip").getD (Val.int 0)) (Val.int 0)) with
    | .error e => .error e
    | .ok skip =>
      let sort : Option String :=
        match alookup args "sort" with
        | some (.str s) => some s
        | _ => Option.none
      .ok ⟨query, classification, limit, skip, sort⟩

/-- `search_recalls_handler(args, client)` (tools.py lines 8–40).  Returns the
    payload dict `{"recalls": ..., "meta": ...}` together with the remote
    calls issued; `.error ()` is a propagating exception — either an argument
    coercion raising (lines 10/29) or an upstream failure. -/
def search_recalls_handler (args : List (String × Val)) (client : Client) :
    Except Unit (List (String × Val) × List RemoteCall) :=
  match searchArgsCall args with
  | .error e => .error e
  | .ok call =>
  match client.search call with
  | .error e => .error e
  | .ok data =>
    let normalized := (resultsOf data).map (fun r => normalize_recall (asRecord r))
    let projected :=
      match alookup args "fields" with
      | some (.list fields) =>
          if !fields.isEmpty then
            normalized.map (fun (item : List (String × Val)) =>
              item.filter (fun (kv : String × Val) =>
                fields.any (fun f => match f with
                                     | Val.str t => t == kv.1
                                     | _ => false)))
          else normalized
      | _ => normalized
    .ok ([("recalls", Val.list (projected.map Val.obj)),
          ("meta", vGetD data "meta" (Val.obj []))],
         [RemoteCall.search call])

-- ---------------------------------------------------------------------------
-- src/ask/tools.py — get_recall_stats_handler
-- ---------------------------------------------------------------------------

/-- The metric-name list Python derives from `args.get("stats") or []` when
    the iteration does not raise: the string entries of a list, the characters
    of a truthy string (each a one-character str), the keys of a dict (all
    strings in this model); a falsy value gives `[]`. -/
def statsOf (args : List (String × Val)) : List String :=
  match pyOr ((alookup args "stats").getD Val.none) (Val.list []) with
  | .list l => l.filterMap (fun v => match v with
                                     | Val.str s => some s
                                     | _ => Option.none)
  | .str s => s.data.map (fun c => (⟨[c]⟩ : String))
  | .obj l => l.map Prod.fst
  | _ => []

/-- `[s for s in (args.get("stats") or []) if isinstance(s, str)]`
    (tools.py lines 44–46): iterating a truthy non-iterable — an int — raises
    TypeError, uncaught. -/
def statsOfE (args : List (String × Val)) : Except Unit (List String) :=
  match pyOr ((alookup args "stats").getD Val.none) (Val.list []) with
  | .int _ => .error ()
  | _ => .ok (statsOf args)

/-- `int(((  (data or {}).get("meta", {}).get("results") or {}).get("total")) or 0)`
    — the metadata-total extraction shared by the firm-total and per-year
    branches. -/
def extractTotal (data : Val) : Int :=
  let meta := vGetD (pyOr data (Val.obj [])) "meta" (Val.obj [])
  let res := pyOr (vGet meta "results") (Val.obj [])
  pyInt (pyOr (vGet res "total") (Val.int 0)) 0

/-- `b.get("term", "") or "Unknown"` (bucket terms are strings under the
    remote contract). -/
def bucketTerm (b : Val) : String :=
  match pyOr (vGetD b "term" (Val.str "")) (Val.str "Unknown") with
  | .str s => s
  | _ => "Unknown"

/-- `int(b.get("count", 0) or 0)`. -/
def bucketCount (b : Val) : Int :=
  pyInt (pyOr (vGetD b "count" (Val.int 0)) (Val.int 0)) 0

/-- Dict assignment `d[k] = v`: overwrite in place or append. -/
def dictInsert (l : List (String × Val)) (k : String) (v : Val) : List (String × Val) :=
  if (l.find? (fun p => p.1 == k)).isSome
  then l.map (fun p => if p.1 == k then (k, v) else p)
  else l ++ [(k, v)]

/-- The dict comprehension
    `{b.get("term","") or "Unknown": int(b.get("count",0) or 0) for b in buckets}`. -/
def classMap (buckets : List Val) : List (String × Val) :=
  buckets.foldl (fun acc b => dictInsert acc (bucketTerm b) (Val.int (bucketCount b))) []

/-- `sum(d.values())` for an int-valued dict. -/
def sumIntVals (l : List (String × Val)) : Int :=
  l.foldl (fun s p => s + (match p.2 with | Val.int n => n | _ => 0)) 0

/-- tools.py lines 76–84: the `byClassification` / `total` branch. -/
def classPart (stats : List String) (client : Client) :
    Except Unit (List (String × Val) × List RemoteCall) :=
  if stats.contains "byClassification" || stats.contains "total" then
    match client.countBuckets "classification" Option.none with
    | .error e => .error e
    | .ok buckets =>
      let m := classMap buckets
      .ok ((if stats.contains "byClassification"
            then [("recallsByClassification", Val.obj m)] else []) ++
           (if stats.contains "total"
            then [("totalRecalls", Val.int (sumIntVals m))] else []),
           [RemoteCall.count "classification" Option.none])
  else .ok ([], [])

/-- `max(1, min(x, 10))`. -/
def clamp110 (x : Int) : Int := max 1 (min x 10)

/-- tools.py lines 92–94: the optional classification clause of the firms
    facet call. -/
def firmsSearchClause (classificationFilter : String) : Option String :=
  if classificationFilter ≠ ""
  then some ("classification:\"" ++ classificationFilter ++ "\"")
  else Option.none

/-- tools.py lines 87–111: the `topFirms` / `bottomFirms` branch; the two
    `int()` coercions of lines 88/90 have no enclosing try and raise on a
    non-coercible truthy limit value, before the facet call. -/
def firmsPart (stats : List String) (classificationFilter : String)
    (args : List (String × Val)) (client : Client) :
    Except Unit (List (String × Val) × List RemoteCall) :=
  if stats.contains "topFirms" || stats.contains "bottomFirms" then
    match pyIntE (pyOr ((alookup args "topFirmsLimit").getD (Val.int 5)) (Val.int 5)) with
    | .error e => .error e
    | .ok limit0 =>
    let limit := clamp110 limit0
    match pyIntE (pyOr ((alookup args "bottomFirmsLimit").getD (Val.int limit))
                       (Val.int limit)) with
    | .error e => .error e
    | .ok bottomLimit0 =>
    let bottomLimit := clamp110 bottomLimit0
    let searchClause := firmsSearchClause classificationFilter
    match client.countBuckets "recalling_firm" searchClause with
    | .error e => .error e
    | .ok firmBuckets =>
      let pairs := firmBuckets.map (fun b => (bucketTerm b, bucketCount b))
      let entryOf : String × Int → Val := fun p =>
        Val.obj [("firm", Val.str p.1), ("count", Val.int p.2)]
      .ok ((if stats.contains "topFirms"
            then [("topFirms", Val.list ((pairs.take limit.toNat).map entryOf))] else []) ++
           (if stats.contains "bottomFirms"
            then [("bottomFirms",
                   Val.list ((((stableSortBy Prod.snd pairs).filter (fun p => p.2 > 0)).take
                               bottomLimit.toNat).map entryOf))]
            else []),
           [RemoteCall.count "recalling_firm" searchClause])
  else .ok ([], [])

/-- The per-year probe query
    `recall_initiation_date:[{year}0101 TO {year}1231]`, `limit=1`. -/
def yearCall (year : Int) : SearchCall :=
  ⟨some ("recall_initiation_date:[" ++ toString year ++ "0101 TO " ++ toString year ++ "1231]"),
   Option.none, 1, 0, Option.none⟩

/-- `range(a, b + 1)` over integers. -/
def intRange (a b : Int) : List Int :=
  (List.range (b + 1 - a).toNat).map (fun i => a + Int.ofNat i)

/-- tools.py lines 115–120: the year-range resolution (invalid or missing
    bounds fall back to the 10 years ending in the current year). -/
def resolveYears (args : List (String × Val)) (thisYear : Int) : Int × Int :=
  match alookup args "startYear", alookup args "endYear" with
  | some (.int sy), some (.int ey) =>
      if sy > ey then (thisYear - 9, thisYear) else (sy, ey)
  | _, _ => (thisYear - 9, thisYear)

/-- tools.py lines 121–130: one probe per year; a failed call is recorded as
    count 0 (local recovery). -/
def yearCounts (client : Client) (a b : Int) : List (String × Int) :=
  (intRange a b).map (fun y =>
    (toString y,
     match client.search (yearCall y) with
     | .ok data => extractTotal data
     | .error _ => 0))

/-- Python `max(items, key=itemgetter(1))`: first pair with maximal second
    component. -/
def pyMaxBySnd (l : List (String × Int)) : Option (String × Int) :=
  l.foldl (fun acc x => match acc with
                        | Option.none => some x
                        | some a => if x.2 > a.2 then some x else acc) Option.none

/-- Python `min(items, key=itemgetter(1))`: first pair with minimal second
    component. -/
def pyMinBySnd (l : List (String × Int)) : Option (String × Int) :=
  l.foldl (fun acc x => match acc with
                        | Option.none => some x
                        | some a => if x.2 < a.2 then some x else acc) Option.none

/-- tools.py lines 113–138: the `byYear` / `mostYear` / `leastYear` branch
    (never raises — per-year failures are absorbed). -/
def yearPart (stats : List String) (args : List (String × Val)) (client : Client)
    (thisYear : Int) : List (String × Val) × List RemoteCall :=
  if stats.contains "byYear" || stats.contains "mostYear" || stats.contains "leastYear" then
    let (a, b) := resolveYears args thisYear
    let rby := yearCounts client a b
    ((if stats.contains "byYear"
      then [("recallsByYear", Val.obj (rby.map (fun p => (p.1, Val.int p.2))))] else []) ++
     (match (if stats.contains "mostYear" && !rby.isEmpty
             then pyMaxBySnd rby else Option.none) with
      | some m => [("mostYear", Val.obj [("year", Val.str m.1), ("count", Val.int m.2)])]
      | Option.none => []) ++
     (match (if stats.contains "leastYear" && !rby.isEmpty
             then pyMinBySnd rby else Option.none) with
      | some m => [("leastYear", Val.obj [("year", Val.str m.1), ("count", Val.int m.2)])]
      | Option.none => []),
     (intRange a b).map (fun y => RemoteCall.search (yearCall y)))
  else ([], [])

/-- `set(stats_requested) == {"firmTotal"}`. -/
def onlyFirmTotal (stats : List String) : Bool :=
  !stats.isEmpty && stats.all (· == "firmTotal")

/-- tools.py lines 61–65: the firm-total probe — an AND-joined exact-match
    query (firm, plus classification when filtered), `limit=1`, `skip=0`. -/
def firmTotalCall (firm classificationFilter : String) : SearchCall :=
  ⟨some (pyJoin " AND "
          (["recalling_firm:\"" ++ firm ++ "\""] ++
           (if classificationFilter ≠ ""
            then ["classification:\"" ++ classificationFilter ++ "\""] else []))),
   Option.none, 1, 0, Option.none⟩

/-- `get_recall_stats_handler(args, client)` (tools.py lines 43–140).
    `thisYear` stands for `datetime.utcnow().year`.  Returns the sparse result
    dict together with the remote calls issued, in order; `.error ()` is a
    propagating exception — an argument coercion raising (lines 44–46, 53,
    59, 88, 90) or an upstream failure. -/
def get_recall_stats_handler (args : List (String × Val)) (client : Client)
    (thisYear : Int) : Except Unit (List (String × Val) × List RemoteCall) :=
  match statsOfE args with
  | .error e => .error e
  | .ok stats =>
  match pyGetStrE args "classification" with
  | .error e => .error e
  | .ok cfRaw =>
  let classificationFilter := pyStrip cfRaw
  let rest : List (String × Val) → List RemoteCall →
      Except Unit (List (String × Val) × List RemoteCall) :=
    fun r0 t0 =>
      match classPart stats client with
      | .error e => .error e
      | .ok (r1, t1) =>
        match firmsPart stats classificationFilter args client with
        | .error e => .error e
        | .ok (r2, t2) =>
          let (r3, t3) := yearPart stats args client thisYear
          .ok (r0 ++ r1 ++ r2 ++ r3, t0 ++ t1 ++ t2 ++ t3)
  if stats.contains "firmTotal" then
    match pyGetStrE args "firm" with
    | .error e => .error e
    | .ok firmRaw =>
    let firm := pyStrip firmRaw
    if firm ≠ "" then
      let call := firmTotalCall firm classificationFilter
      match client.search call with
      | .error e => .error e
      | .ok data =>
        let r0 := [("firmTotal", Val.int (extractTotal data)), ("firm", Val.str firm)]
        if onlyFirmTotal stats then .ok (r0, [RemoteCall.search call])
        else rest r0 [RemoteCall.search call]
    else rest [("firmTotal", Val.int 0)] []
  else rest [] []

-- ---------------------------------------------------------------------------
-- src/ask/services.py lines 71–104 — the intent-correction layer
-- ---------------------------------------------------------------------------

/-- services.py lines 73–81: the classification hint, gated by the presence of
    the substring "classification" in the lower-cased question.  The branches
    are tried in order; note `"class i"` is a substring of `"class ii"` and
    `"class iii"`. -/
def classHint (uq : String) : Option String :=
  if hasSub uq "classification" then
    if hasSub uq " 1" || hasSub uq " class 1" || hasSub uq "class i" then some "Class I"
    else if hasSub uq " 2" || hasSub uq " class 2" || hasSub uq "class ii" then some "Class II"
    else if hasSub uq " 3" || hasSub uq " class 3" || hasSub uq "class iii" then some "Class III"
    else Option.none
  else Option.none

/-- The stop-word list of the firm-name extraction. -/
def stopwords : List String := ["is", "are", "exists", "for", "of", "the"]

/-- services.py lines 85–87 (and the identical lines 221–225):
    text after the first "firm", whitespace-split, stop words removed,
    rejoined, stripped of whitespace and quotes. -/
def extractFirmName (uq : String) : String :=
  let firmPart := pyStrip (afterFirst uq "firm")
  let tokens := (pySplitWs firmPart).filter (fun t => !stopwords.contains t)
  pyStripQuotes (pyStrip (pyJoin " " tokens))

/-- Literal regex piece: match `lit` at the head, return the remainder. -/
def matchLit (lit cs : List Char) : Option (List Char) :=
  if headMatch lit cs then some (cs.drop lit.length) else Option.none

/-- Regex `\s+` directly followed by a literal: maximal munch is exact. -/
def matchWs1 : List Char → Option (List Char)
  | [] => Option.none
  | c :: cs => if c.isWhitespace then some (cs.dropWhile Char.isWhitespace) else Option.none

/-- Keyword part `recalls\s+for\s+firm` of the firm-listing regex. -/
def kwRecallsForFirm (cs : List Char) : Option (List Char) :=
  ((((matchLit "recalls".data cs).bind matchWs1).bind
    (matchLit "for".data)).bind matchWs1).bind (matchLit "firm".data)

/-- Keyword part `list\s+(?:all\s+)?recalls\s+for\s+firm`; the optional
    `all\s+` is tried greedily first (at most one of the two suffix shapes can
    match, so committing is faithful). -/
def kwListRecallsForFirm (cs : List Char) : Option (List Char) :=
  ((matchLit "list".data cs).bind matchWs1).bind (fun r =>
    match ((matchLit "all".data r).bind matchWs1).bind kwRecallsForFirm with
    | some t => some t
    | Option.none => kwRecallsForFirm r)

/-- Trailing `\s+(.+)` of the firm-listing regex, with the backtracking Python
    applies: the greedy `\s+` gives whitespace back to `(.+)` when needed, and
    `.` does not match a newline. -/
def tailGroup : List Char → Option String
  | [] => Option.none
  | c :: cs =>
      if c.isWhitespace then
        match tailGroup cs with
        | some g => some g
        | Option.none =>
            let g := cs.takeWhile (fun d => d ≠ '\x0a')
            if g.isEmpty then Option.none else some ⟨g⟩
      else Option.none

/-- `re.search(r'(?:recalls\s+for\s+firm|list\s+(?:all\s+)?recalls\s+for\s+firm)\s+(.+)', uq)`:
    scan left to right, at each position try the two alternatives in order;
    return `group(1)` of the leftmost match (services.py line 100). -/
def reSearchFirm : List Char → Option String
  | [] => Option.none
  | c :: cs =>
      match (kwRecallsForFirm (c :: cs)).bind tailGroup with
      | some g => some g
      | Option.none =>
          match (kwListRecallsForFirm (c :: cs)).bind tailGroup with
          | some g => some g
          | Option.none => reSearchFirm cs

/-- The firm-listing pattern over the lower-cased question. -/
def firmListMatch (uq : String) : Option String := reSearchFirm uq.data

/-- services.py lines 68–104: intent correction applied to one proposed tool
    call `(name, args)` for the given question, before dispatch.  The three
    rewrite rules run in order and are not mutually exclusive. -/
def correctIntent (question name : String) (args : List (String × Val)) :
    String × List (String × Val) :=
  let uq := pyLower question
  let classLabel := classHint uq
  let addClass : List (String × Val) → List (String × Val) := fun a =>
    match classLabel with
    | some c => a ++ [("classification", Val.str c)]
    | Option.none => a
  let (n1, a1) :=
    if name == "get_recall_stats" && hasSub uq "how many" && hasSub uq "firm" then
      let firmName := extractFirmName uq
      let firm := if firmName ≠ "" then firmName else pyGetStr args "firm"
      (name, addClass [("stats", Val.list [Val.str "firmTotal"]), ("firm", Val.str firm)])
    else (name, args)
  let (n2, a2) :=
    if hasSub uq "least" || hasSub uq "fewest" then
      ("get_recall_stats",
       addClass [("stats", Val.list [Val.str "bottomFirms"]), ("bottomFirmsLimit", Val.int 10)])
    else (n1, a1)
  match firmListMatch uq with
  | some g =>
      ("search_recalls",
       [("firm", Val.str (pyStripQuotes (pyStrip g))), ("limit", Val.int 50),
        ("sort", Val.str "recall_initiation_date:desc")])
  | Option.none => (n2, a2)

-- ---------------------------------------------------------------------------
-- src/ask/services.py — conversation loop and fallback rules
-- ---------------------------------------------------------------------------

/-- One model response: the proposed tool calls of its parts, and its text
    (`getattr(response, "text", "") or ""`). -/
structure Turn where
  functionCalls : List (String × List (String × Val))
  text : String

/-- The system clock / calendar oracle: `datetime.utcnow().year`,
    `utcnow().strftime("%Y%m%d")`, and
    `(utcnow() - timedelta(days=k)).strftime("%Y%m%d")`.  Only these formatted
    outputs of the datetime library flow through the code under verification. -/
structure Clock where
  year : Int
  todayStr : String
  daysAgoStr : Nat → String

/-- One executed tool call: the dispatch round (1-based), the corrected name
    and arguments, and the tool payload recorded as `last_tool_payload`. -/
structure LogEntry where
  round : Nat
  tool : String
  args : List (String × Val)
  payload : List (String × Val)

/-- The value of `run_conversation_with_gemini` (`{"answer": ..., "data": ...}`),
    instrumented with the dispatch-round count, the executed tool calls and
    the remote calls issued. -/
structure RunOutcome where
  answer : String
  data : Option (List (String × Val))
  dispatchRounds : Nat
  toolLog : List LogEntry
  remoteLog : List RemoteCall

/-- services.py line 239. -/
def apologyAnswer : String := "Sorry, I could not complete the request."

/-- services.py lines 52–58: `call_tool`. -/
def callTool (name : String) (args : List (String × Val)) (client : Client)
    (thisYear : Int) : Except Unit (List (String × Val) × List RemoteCall) :=
  if name == "search_recalls" then search_recalls_handler args client
  else if name == "get_recall_stats" then get_recall_stats_handler args client thisYear
  else .ok ([("error", Val.str ("Unknown tool: " ++ name))], [])

/-- services.py lines 68–120: process the tool calls of one model turn in
    order — correct the intent, dispatch, record the payload, send it back
    (modelled as advancing the response index).  Returns the new response
    index, the log entries of this round and the remote calls issued; an
    uncaught tool exception propagates. -/
def dispatchCalls (client : Client) (clock : Clock) (question : String) (round : Nat) :
    List (String × List (String × Val)) → Nat →
    Except Unit (Nat × List LogEntry × List RemoteCall)
  | [], msgIdx => .ok (msgIdx, [], [])
  | (name, args) :: rest, msgIdx =>
      let na := correctIntent question name args
      match callTool na.1 na.2 client clock.year with
      | .error e => .error e
      | .ok (payload, calls) =>
          match dispatchCalls client clock question round rest (msgIdx + 1) with
          | .error e => .error e
          | .ok (msgIdx', entries, calls') =>
              .ok (msgIdx', ⟨round, na.1, na.2, payload⟩ :: entries, calls ++ calls')

/-- `len(payload.get("recalls", []) or [])`. -/
def recallsCount (payload : List (String × Val)) : Nat :=
  match pyOr ((alookup payload "recalls").getD (Val.list [])) (Val.list []) with
  | .list l => l.length
  | _ => 0

/-- f-string rendering of the values that reach an answer string (strings and
    ints on every verified path). -/
def fmtVal : Val → String
  | .str s => s
  | .int n => toString n
  | .none => "None"
  | .list _ => ""
  | .obj _ => ""

/-- services.py lines 128–137 (and the matching arm of lines 174–196): parse
    the integer following "last"/"past" (`kw`), with the trailing unit word. -/
def parseNUnit (uq kw : String) : Int × String :=
  let tokens := pySplitWs (pyStrip (afterFirst uq kw))
  match tokens with
  | [] => (1, "days")
  | t :: rest =>
      if pyIsDigit t then
        (Int.ofNat (digitsToNat t.data), match rest with | [] => "days" | u :: _ => u)
      else (1, t)

/-- services.py lines 124–237: the deterministic fallback rules applied when a
    model turn proposes no tool call.  Ordered, first match returns; rule 5
    swallows its own remote failures and falls through to the final return. -/
def fallbackAnswer (client : Client) (clock : Clock) (question finalText : String)
    (lastP : Option (List (String × Val))) (dr : Nat) (log : List LogEntry)
    (rlog : List RemoteCall) : Except Unit RunOutcome :=
  let uq := pyLower question
  let rule6 : Except Unit RunOutcome := .ok ⟨finalText, lastP, dr, log, rlog⟩
  -- Rule 1 (lines 127–144): "last N recalls"
  if hasSub uq "last" && hasSub uq "recall" then
    let tokens := pySplitWs (pyStrip (afterFirst uq "last"))
    let n : Int := match tokens with
                   | t :: _ => if pyIsDigit t then Int.ofNat (digitsToNat t.data) else 10
                   | [] => 10
    match search_recalls_handler
        [("limit", Val.int n), ("sort", Val.str "recall_initiation_date:desc")] client with
    | .error e => .error e
    | .ok (payload, calls) =>
        .ok ⟨"Last " ++ toString n ++ " recalls (newest first). Found " ++
               toString (recallsCount payload) ++ ".",
             some payload, dr, log, rlog ++ calls⟩
  -- Rule 2 (lines 146–159): list recalls for a firm
  else if (hasSub uq "list" || hasSub uq "recalls for firm" || hasSub uq "list all recalls")
          && hasSub uq "firm" then
    let firmName := extractFirmName uq
    match search_recalls_handler
        [("firm", Val.str firmName), ("limit", Val.int 50),
         ("sort", Val.str "recall_initiation_date:desc")] client with
    | .error e => .error e
    | .ok (payload, calls) =>
        .ok ⟨"Showing " ++ toString (recallsCount payload) ++ " recalls for firm " ++
               firmName ++ " (newest first).",
             some payload, dr, log, rlog ++ calls⟩
  -- Rule 3 (lines 161–169): top firms
  else if hasSub uq "which firms" || hasSub uq "top firms" || hasSub uq "most recalls"
          || hasSub uq "who has the most" then
    match get_recall_stats_handler
        [("stats", Val.list [Val.str "topFirms"]), ("topFirmsLimit", Val.int 10)]
        client clock.year with
    | .error e => .error e
    | .ok (payload, calls) =>
        let top := match pyOr ((alookup payload "topFirms").getD (Val.list []))
                             (Val.list []) with
                   | .list l => l
                   | _ => []
        let answer :=
          if !top.isEmpty then
            "Top firms by recall count:\n" ++
            pyJoin "\x0a" (top.enum.map (fun p =>
              toString (p.1 + 1) ++ ". " ++ fmtVal (vGetD p.2 "firm" (Val.str "Unknown")) ++
              ": " ++ fmtVal (vGetD p.2 "count" (Val.int 0))))
          else "No firm recall data available."
        .ok ⟨answer, some payload, dr, log, rlog ++ calls⟩
  -- Rule 4 (lines 171–216): time-range query
  else if (hasSub uq "last" || hasSub uq "past") && hasSub uq "recall" then
    let nu := if hasSub uq "last" then parseNUnit uq "last" else parseNUnit uq "past"
    let unit := pyRstripS nu.2
    let days : Nat := if unit == "day" then nu.1.toNat
                      else if unit == "week" then 7 * nu.1.toNat
                      else if unit == "month" then 30 * nu.1.toNat
                      else nu.1.toNat
    let startStr := clock.daysAgoStr days
    let endStr := clock.todayStr
    let query := "recall_initiation_date:[" ++ startStr ++ " TO " ++ endStr ++ "]"
    match search_recalls_handler
        [("query", Val.str query), ("limit", Val.int 50),
         ("sort", Val.str "recall_initiation_date:desc")] client with
    | .error e => .error e
    | .ok (payload, calls) =>
        .ok ⟨"Showing " ++ toString (recallsCount payload) ++ " recalls from " ++
               startStr ++ " to " ++ endStr ++ ".",
             some payload, dr, log, rlog ++ calls⟩
  -- Rule 5 (lines 218–236): firm total, failures swallowed
  else if hasSub uq "how many" && hasSub uq "firm" then
    let firmName := extractFirmName uq
    if firmName ≠ "" then
      let query := "recalling_firm:\"" ++ firmName ++ "\""
      let call : SearchCall := ⟨some query, Option.none, 1, 0, Option.none⟩
      match client.search call with
      | .error _ => rule6
      | .ok data =>
          let total := extractTotal data
          match search_recalls_handler
              [("query", Val.str query), ("limit", Val.int (min 10 total)),
               ("sort", Val.str "recall_initiation_date:desc")] client with
          | .error _ => rule6
          | .ok (sample, calls2) =>
              -- `sample_payload if sample_payload else {"total": total}`: the
              -- handler's payload dict has two keys, hence is always truthy.
              .ok ⟨"Total recalls for firm " ++ firmName ++ ": " ++ toString total,
                   some sample, dr, log, rlog ++ [RemoteCall.search call] ++ calls2⟩
    else rule6
  else rule6

/-- services.py lines 62–239: the bounded conversation loop.  `model i` is the
    response returned by the i-th `send_message` (the question is send 0, each
    tool result is one further send).  Structural recursion on the remaining
    round budget — a sixth dispatch round is impossible by construction. -/
def loopAux (model : Nat → Turn) (client : Client) (clock : Clock) (question : String) :
    Nat → Nat → Option (List (String × Val)) → Nat → List LogEntry → List RemoteCall →
    Except Unit RunOutcome
  | 0, _, lastP, dr, log, rlog => .ok ⟨apologyAnswer, lastP, dr, log, rlog⟩
  | fuel + 1, msgIdx, lastP, dr, log, rlog =>
      let turn := model msgIdx
      match turn.functionCalls with
      | [] => fallbackAnswer client clock question turn.text lastP dr log rlog
      | fc :: fcs =>
          match dispatchCalls client clock question (dr + 1) (fc :: fcs) msgIdx with
          | .error e => .error e
          | .ok (msgIdx', entries, calls) =>
              let lastP' := match entries.getLast? with
                            | some en => some en.payload
                            | Option.none => lastP
              loopAux model client clock question fuel msgIdx' lastP' (dr + 1)
                (log ++ entries) (rlog ++ calls)

/-- `run_conversation_with_gemini(question)` with the LLM, the remote client
    and the clock supplied as oracles (`max_rounds = 5`). -/
def run_conversation (model : Nat → Turn) (client : Client) (clock : Clock)
    (question : String) : Except Unit RunOutcome :=
  loopAux model client clock question 5 0 Option.none 0 [] []

-- ---------------------------------------------------------------------------
-- Concrete oracles used by witnesses and counterexamples
-- ---------------------------------------------------------------------------

/-- The minimal always-successful remote oracle: empty JSON object, no
    buckets. -/
def emptyClient : Client := ⟨fun _ => .ok (Val.obj []), fun _ _ => .ok []⟩

/-- A fixed successful search response: total 42 and one raw record. -/
def sampleData : Val :=
  Val.obj [("meta", Val.obj [("results", Val.obj [("total", Val.int 42)])]),
           ("results", Val.list [Val.obj [("recall_number", Val.str "R1"),
                                          ("recalling_firm", Val.str "ACME")]])]

/-- The bucket list of the spec's `bottomFirms` example:
    `[{A,5},{B,0},{C,2}]`. -/
def sampleBuckets : List Val :=
  [Val.obj [("term", Val.str "A"), ("count", Val.int 5)],
   Val.obj [("term", Val.str "B"), ("count", Val.int 0)],
   Val.obj [("term", Val.str "C"), ("count", Val.int 2)]]

/-- An always-successful oracle serving `sampleData` / `sampleBuckets`. -/
def sampleClient : Client := ⟨fun _ => .ok sampleData, fun _ _ => .ok sampleBuckets⟩

/-- An oracle whose search fails exactly on the year-2023 probe. -/
def flakyClient : Client :=
  ⟨fun c => if c = yearCall 2023 then .error () else .ok sampleData,
   fun _ _ => .ok []⟩

/-- A fixed clock. -/
def sampleClock : Clock := ⟨2024, "20241001", fun k => "ago" ++ toString k⟩

-- ---------------------------------------------------------------------------
-- Substring infrastructure
-- ---------------------------------------------------------------------------

theorem headMatch_iff (pat l : List Char) : headMatch pat l = true ↔ pat <+: l := by
  induction pat generalizing l with
  | nil => simp [headMatch]
  | cons p ps ih =>
      cases l with
      | nil => simp [headMatch]
      | cons c cs =>
          rw [headMatch, Bool.and_eq_true, beq_iff_eq, ih, List.cons_prefix_cons]

theorem hasSubChars_iff (pat l : List Char) : hasSubChars pat l = true ↔ pat <:+: l := by
  induction l with
  | nil =>
      rw [hasSubChars, List.isEmpty_iff]
      constructor
      · rintro rfl; exact List.infix_rfl
      · exact List.eq_nil_of_infix_nil
  | cons c cs ih =>
      rw [hasSubChars, Bool.or_eq_true, headMatch_iff, ih, List.infix_cons_iff]

/-- Substring containment is transitive through a concrete middle string. -/
theorem hasSub_trans {uq : String} (mid pat : String)
    (h : hasSub uq mid = true) (hmid : hasSubChars pat.data mid.data = true) :
    hasSub uq pat = true := by
  rw [hasSub, hasSubChars_iff] at h ⊢
  exact List.IsInfix.trans ((hasSubChars_iff _ _).1 hmid) h

-- ---------------------------------------------------------------------------
-- Fallible argument-coercion infrastructure
-- ---------------------------------------------------------------------------

theorem pyGetStrE_str {args : List (String × Val)} {k s : String}
    (h : alookup args k = some (Val.str s)) : pyGetStrE args k = .ok s := by
  simp only [pyGetStrE, h]
  by_cases hs : truthy (Val.str s) = true
  · rw [if_pos hs]
  · rw [if_neg hs]
    have hs' : s = "" := by
      simp only [truthy, Bool.not_eq_true, Bool.not_eq_true'] at hs
      exact (String.isEmpty_iff _).1 (by simpa using hs)
    rw [hs']

/-- On success, the fallible `.strip()`-site read agrees with the total read
    used on the no-strip path. -/
theorem pyGetStrE_ok_eq {args : List (String × Val)} {k s : String}
    (h : pyGetStrE args k = .ok s) : s = pyGetStr args k := by
  cases hl : alookup args k with
  | none =>
      simp only [pyGetStrE, hl] at h
      simp only [pyGetStr, hl]
      injection h with h
      exact h.symm
  | some v =>
      cases v with
      | str t =>
          simp only [pyGetStrE, hl] at h
          simp only [pyGetStr, hl]
          by_cases ht : truthy (Val.str t) = true
          · rw [if_pos ht] at h
            injection h with h
            exact h.symm
          · rw [if_neg ht] at h
            injection h with h
            have ht' : t = "" := by
              simp only [truthy, Bool.not_eq_true, Bool.not_eq_true'] at ht
              exact (String.isEmpty_iff _).1 (by simpa using ht)
            rw [← h, ht']
      | none =>
          simp only [pyGetStrE, hl, truthy, if_neg] at h
          simp only [pyGetStr, hl]
          injection h with h
          exact h.symm
      | int n =>
          simp only [pyGetStrE, hl] at h
          simp only [pyGetStr, hl]
          by_cases ht : truthy (Val.int n) = true
          · rw [if_pos ht] at h
            cases h
          · rw [if_neg ht] at h
            injection h with h
            exact h.symm
      | list l =>
          simp only [pyGetStrE, hl] at h
          simp only [pyGetStr, hl]
          by_cases ht : truthy (Val.list l) = true
          · rw [if_pos ht] at h
            cases h
          · rw [if_neg ht] at h
            injection h with h
            exact h.symm
      | obj l =>
          simp only [pyGetStrE, hl] at h
          simp only [pyGetStr, hl]
          by_cases ht : truthy (Val.obj l) = true
          · rw [if_pos ht] at h
            cases h
          · rw [if_neg ht] at h
            injection h with h
            exact h.symm

/-- On success, the fallible stats iteration returns exactly `statsOf`. -/
theorem statsOfE_ok_eq {args : List (String × Val)} {l : List String}
    (h : statsOfE args = .ok l) : l = statsOf args := by
  rw [statsOfE] at h
  split at h
  · cases h
  · injection h with h
    exact h.symm

/-- With a list-valued "stats" entry the fallible iteration succeeds. -/
theorem statsOfE_list (L : List Val) (rest : List (String × Val)) :
    statsOfE (("stats", Val.list L) :: rest) =
      .ok (statsOf (("stats", Val.list L) :: rest)) := by
  cases L <;> rfl

-- ---------------------------------------------------------------------------
-- C10
-- ---------------------------------------------------------------------------

/-- C10: when the raw record has the key "firm_name" bound to null or to the
    empty string, `normalize_recall` yields `firmName = ""` regardless of any
    `recalling_firm` value; the fallback to `recalling_firm` applies only when
    the "firm_name" key is absent entirely. -/
theorem C10_firm_name_null (record : List (String × Val)) (v : Val)
    (hpresent : alookup record "firm_name" = some v)
    (hnull : v = Val.none ∨ v = Val.str "") :
    alookup (normalize_recall record) "firmName" = some (Val.str "") ∧
    (∀ record2 : List (String × Val), alookup record2 "firm_name" = Option.none →
       alookup (normalize_recall record2) "firmName" =
         some (pyOr ((alookup record2 "recalling_firm").getD (Val.str "")) (Val.str ""))) := by
  simp only [alookup] at hpresent
  constructor
  · rcases hnull with h | h <;> subst h <;>
      simp [normalize_recall, alookup, List.find?, hpresent, pyOr, truthy]
  · intro r2 h2
    simp only [alookup] at h2
    simp [normalize_recall, alookup, List.find?, h2]

/-- Witness for C10: a record with `firm_name: null` and a non-empty
    `recalling_firm` normalizes to `firmName = ""`. -/
theorem C10_witness :
    alookup (normalize_recall [("firm_name", Val.none), ("recalling_firm", Val.str "ACME")])
        "firmName" = some (Val.str "") :=
  (C10_firm_name_null [("firm_name", Val.none), ("recalling_firm", Val.str "ACME")]
    Val.none rfl (Or.inl rfl)).1

-- ---------------------------------------------------------------------------
-- C1
-- ---------------------------------------------------------------------------

/-- C1 counterexample: for the question "how many recalls for firm Acme
    class 1" the corrected tool call is not `get_recall_stats` at all — the
    firm-listing rule, which runs last, rewrites it to `search_recalls`. -/
theorem C1_counterexample :
    (correctIntent "how many recalls for firm Acme class 1" "get_recall_stats"
        [("stats", Val.list [Val.str "total"])]).1 ≠ "get_recall_stats" := by
  decide

/-- C1 amended: for the question "how many recalls for firm Acme class 1" and
    any proposed `get_recall_stats` arguments, the corrected call is
    `search_recalls` with `{firm:"acme class 1", limit:50,
    sort:"recall_initiation_date:desc"}`: no classification is injected (the
    question lacks the substring "classification"), the firm-total rewrite's
    extracted firm name keeps "class 1", and the firm-listing rule then
    overwrites the whole call. -/
theorem C1_amended (args : List (String × Val)) :
    correctIntent "how many recalls for firm Acme class 1" "get_recall_stats" args =
      ("search_recalls",
       [("firm", Val.str "acme class 1"), ("limit", Val.int 50),
        ("sort", Val.str "recall_initiation_date:desc")]) := rfl

-- ---------------------------------------------------------------------------
-- C7
-- ---------------------------------------------------------------------------

/-- C7 counterexample: a question containing "classification" and "class iii"
    is not detected as Class III — the Class-I test `"class i" in uq` matches
    the substring first. -/
theorem C7_counterexample :
    classHint (pyLower "Fewest recalls by classification class iii") ≠ some "Class III" := by
  decide

/-- C7 amended: under the "classification" gate, the digit forms "class 2" /
    "class 3" are detected as Class II / Class III (absent any
    earlier-checked pattern), and "class i" yields Class I — but the word
    forms "class ii" and "class iii" also yield Class I, because the Class-I
    substring test `"class i" in uq` fires first. -/
theorem C7_amended (uq : String) (hc : hasSub uq "classification" = true) :
    (hasSub uq "class i" = true → classHint uq = some "Class I") ∧
    (hasSub uq "class ii" = true → classHint uq = some "Class I") ∧
    (hasSub uq "class iii" = true → classHint uq = some "Class I") ∧
    (hasSub uq " class 2" = true → hasSub uq " 1" = false → hasSub uq " class 1" = false →
       hasSub uq "class i" = false → classHint uq = some "Class II") ∧
    (hasSub uq " class 3" = true → hasSub uq " 1" = false → hasSub uq " class 1" = false →
       hasSub uq "class i" = false → hasSub uq " 2" = false → hasSub uq " class 2" = false →
       hasSub uq "class ii" = false → classHint uq = some "Class III") := by
  refine ⟨fun h1 => ?_, fun h2 => ?_, fun h3 => ?_,
          fun h2 n1 n2 n3 => ?_, fun h3 n1 n2 n3 n4 n5 n6 => ?_⟩
  · simp [classHint, hc, h1]
  · have h1 : hasSub uq "class i" = true := hasSub_trans "class ii" "class i" h2 (by decide)
    simp [classHint, hc, h1]
  · have h1 : hasSub uq "class i" = true := hasSub_trans "class iii" "class i" h3 (by decide)
    simp [classHint, hc, h1]
  · have h2' : hasSub uq " 2" = true := hasSub_trans " class 2" " 2" h2 (by decide)
    simp [classHint, hc, n1, n2, n3, h2']
  · have h3' : hasSub uq " 3" = true := hasSub_trans " class 3" " 3" h3 (by decide)
    simp [classHint, hc, n1, n2, n3, n4, n5, n6, h3']

/-- Witness for C7: "by classification class iii" is detected as Class I. -/
theorem C7_witness :
    classHint "by classification class iii" = some "Class I" :=
  (C7_amended "by classification class iii" (by decide)).2.2.1 (by decide)

-- ---------------------------------------------------------------------------
-- C6
-- ---------------------------------------------------------------------------

/-- C6 counterexample: the question "fewest recalls for firm acme" contains
    "fewest", yet the dispatched tool is not `get_recall_stats` — the
    firm-listing rule runs after the least/fewest rule and overwrites it with
    `search_recalls`. -/
theorem C6_counterexample :
    (correctIntent "fewest recalls for firm acme" "get_recall_stats" []).1
      ≠ "get_recall_stats" := by
  decide

/-- C6 amended: for a question containing "least" or "fewest", the
    least/fewest rule rewrites the call to `get_recall_stats` with
    `{stats:["bottomFirms"], bottomFirmsLimit:10}` regardless of the model's
    proposal — plus a `classification` entry when the question carries a
    classification hint — but the later firm-listing rule can overwrite the
    result again; when neither a hint nor a firm-listing match is present the
    dispatch is exactly as claimed. -/
theorem C6_amended (question name : String) (args : List (String × Val))
    (h : hasSub (pyLower question) "least" = true ∨ hasSub (pyLower question) "fewest" = true)
    (hcls : classHint (pyLower question) = Option.none)
    (hfl : firmListMatch (pyLower question) = Option.none) :
    correctIntent question name args =
      ("get_recall_stats",
       [("stats", Val.list [Val.str "bottomFirms"]), ("bottomFirmsLimit", Val.int 10)]) := by
  have hcond : (hasSub (pyLower question) "least" || hasSub (pyLower question) "fewest") = true := by
    rcases h with h | h <;> simp [h]
  simp [correctIntent, hcond, hcls, hfl]

/-- Witness for C6: a clean "fewest recalls" question replaces an unrelated
    proposal with the bottom-firms call. -/
theorem C6_witness :
    correctIntent "fewest recalls" "search_recalls" [("limit", Val.int 3)] =
      ("get_recall_stats",
       [("stats", Val.list [Val.str "bottomFirms"]), ("bottomFirmsLimit", Val.int 10)]) :=
  C6_amended "fewest recalls" "search_recalls" [("limit", Val.int 3)]
    (Or.inr (by decide)) (by decide) (by decide)

-- ---------------------------------------------------------------------------
-- C2
-- ---------------------------------------------------------------------------

/-- When the "stats" argument is a list, the requested metrics are its string
    entries (an empty list and a missing key coincide). -/
theorem statsOf_eq (L : List Val) (rest : List (String × Val)) :
    statsOf (("stats", Val.list L) :: rest) =
      L.filterMap (fun v => match v with | Val.str s => some s | _ => Option.none) := by
  cases L <;> simp [statsOf, alookup, List.find?, pyOr, truthy]

theorem contains_of_onlyFirmTotal {l : List String} (h : onlyFirmTotal l = true) :
    l.contains "firmTotal" = true := by
  rcases l with _ | ⟨x, xs⟩
  · simp [onlyFirmTotal] at h
  · rw [onlyFirmTotal, Bool.and_eq_true, List.all_cons, Bool.and_eq_true, beq_iff_eq] at h
    simp [List.contains_cons, h.2.1]

/-- C2 counterexample: with `stats=["firmTotal"]` and the non-empty (but
    whitespace-only) firm string `" "`, the handler returns `{firmTotal: 0}`
    with no `firm` key and issues no remote call at all — the firm string is
    stripped before the emptiness test. -/
theorem C2_counterexample :
    get_recall_stats_handler
        [("stats", Val.list [Val.str "firmTotal"]), ("firm", Val.str " ")]
        emptyClient 2024 = .ok ([("firmTotal", Val.int 0)], []) ∧
    alookup [("firmTotal", Val.int 0)] "firm" = Option.none := ⟨rfl, rfl⟩

/-- C2 amended: when the requested metric set is exactly `{"firmTotal"}` and
    the firm string is non-empty **after stripping whitespace**, the handler
    returns exactly `{firmTotal: N, firm: F.strip()}` via exactly one remote
    search with `limit=1`, and no other branch issues a call. -/
theorem C2_amended (statsList : List Val) (F : String) (client : Client) (data : Val)
    (thisYear : Int)
    (honly : onlyFirmTotal (statsOf [("stats", Val.list statsList), ("firm", Val.str F)]) = true)
    (hfirm : pyStrip F ≠ "")
    (hsearch : client.search
        ⟨some ("recalling_firm:\"" ++ pyStrip F ++ "\""), Option.none, 1, 0, Option.none⟩
      = .ok data) :
    get_recall_stats_handler [("stats", Val.list statsList), ("firm", Val.str F)]
        client thisYear =
      .ok ([("firmTotal", Val.int (extractTotal data)), ("firm", Val.str (pyStrip F))],
           [RemoteCall.search
             ⟨some ("recalling_firm:\"" ++ pyStrip F ++ "\""), Option.none, 1, 0,
              Option.none⟩]) := by
  rw [statsOf_eq] at honly
  have hc := contains_of_onlyFirmTotal honly
  have hstE := statsOfE_list statsList [("firm", Val.str F)]
  have hcl : pyGetStrE [("stats", Val.list statsList), ("firm", Val.str F)] "classification"
      = .ok "" := rfl
  have hgf : pyGetStrE [("stats", Val.list statsList), ("firm", Val.str F)] "firm"
      = .ok F := pyGetStrE_str rfl
  have hstrip : pyStrip "" = "" := rfl
  simp only [get_recall_stats_handler, hstE, hcl, hgf, statsOf_eq, hstrip, hc, if_true,
    ne_eq, hfirm, not_false_eq_true, if_false, ite_not,
    show firmTotalCall (pyStrip F) "" =
      ⟨some ("recalling_firm:\"" ++ pyStrip F ++ "\""), Option.none, 1, 0, Option.none⟩
      from rfl]
  rw [hsearch]
  simp [honly]

/-- Witness for C2: `stats=["firmTotal"], firm="Acme"` against a fixed remote
    with total 42. -/
theorem C2_witness :
    get_recall_stats_handler
        [("stats", Val.list [Val.str "firmTotal"]), ("firm", Val.str "Acme")]
        sampleClient 2024 =
      .ok ([("firmTotal", Val.int 42), ("firm", Val.str "Acme")],
           [RemoteCall.search
             ⟨some "recalling_firm:\"Acme\"", Option.none, 1, 0, Option.none⟩]) :=
  Eq.trans (C2_amended [Val.str "firmTotal"] "Acme" sampleClient sampleData 2024
    (by decide) (by decide) rfl) (by rfl)

-- ---------------------------------------------------------------------------
-- C5
-- ---------------------------------------------------------------------------

theorem mem_stableInsert {key : α → Int} {x a : α} {l : List α} :
    x ∈ stableInsert key a l ↔ x = a ∨ x ∈ l := by
  induction l with
  | nil => simp [stableInsert]
  | cons y ys ih =>
      rw [stableInsert]
      by_cases h : key a < key y
      · simp [h]
      · rw [if_neg h]
        simp only [List.mem_cons, ih]
        tauto

theorem mem_stableSortBy {key : α → Int} {x : α} {l : List α} :
    x ∈ stableSortBy key l ↔ x ∈ l := by
  have h : ∀ (l : List α) (acc : List α),
      x ∈ l.foldl (fun acc y => stableInsert key y acc) acc ↔ x ∈ acc ∨ x ∈ l := by
    intro l
    induction l with
    | nil => simp
    | cons y ys ih =>
        intro acc
        rw [List.foldl_cons, ih, mem_stableInsert]
        simp only [List.mem_cons]
        tauto
  simpa [stableSortBy] using h l []

/-- The spec's description of `bottomFirms`: sort the full bucket set
    ascending by count, exclude the zero-count buckets, take the first
    `limit`. -/
def bottomFirmsSpec (buckets : List Val) (limit : Nat) : List Val :=
  (((stableSortBy Prod.snd (buckets.map (fun b => (bucketTerm b, bucketCount b)))).filter
      (fun p => p.2 != 0)).take limit).map
    (fun p => Val.obj [("firm", Val.str p.1), ("count", Val.int p.2)])

/-- The `bottomFirms`-only instance of the firms branch equals the spec-side
    description. -/
theorem firmsPart_bottom (client : Client) (bs : List Val) (lim : Int)
    (hbk : client.countBuckets "recalling_firm" Option.none = .ok bs)
    (hlo : 1 ≤ lim) (hhi : lim ≤ 10)
    (hpos : ∀ b ∈ bs, 0 ≤ bucketCount b) :
    firmsPart ["bottomFirms"] ""
        [("stats", Val.list [Val.str "bottomFirms"]), ("bottomFirmsLimit", Val.int lim)]
        client =
      .ok ([("bottomFirms", Val.list (bottomFirmsSpec bs lim.toNat))],
           [RemoteCall.count "recalling_firm" Option.none]) := by
  have htr : truthy (Val.int lim) = true := by
    simp only [truthy, bne_iff_ne, ne_eq, decide_eq_true_eq]
    omega
  have hclamp : clamp110 lim = lim := by simp only [clamp110]; omega
  simp only [firmsPart,
    show (["bottomFirms"].contains "topFirms" || ["bottomFirms"].contains "bottomFirms")
      = true from rfl, if_true,
    show (alookup [("stats", Val.list [Val.str "bottomFirms"]),
      ("bottomFirmsLimit", Val.int lim)] "topFirmsLimit").getD (Val.int 5) = Val.int 5 from rfl,
    pyOr, show truthy (Val.int 5) = true from rfl,
    show pyIntE (Val.int 5) = Except.ok (5 : Int) from rfl,
    show clamp110 (5 : Int) = 5 from rfl,
    show (alookup [("stats", Val.list [Val.str "bottomFirms"]),
      ("bottomFirmsLimit", Val.int lim)] "bottomFirmsLimit").getD (Val.int 5)
      = Val.int lim from rfl,
    htr, show pyIntE (Val.int lim) = Except.ok lim from rfl, hclamp,
    show (["bottomFirms"].contains "topFirms") = false from rfl,
    show (["bottomFirms"].contains "bottomFirms") = true from rfl,
    show firmsSearchClause "" = Option.none from rfl,
    Bool.false_eq_true, if_false, ne_eq, not_true_eq_false, ite_true, ite_false,
    List.nil_append]
  rw [hbk]
  simp only [Bool.false_or, if_true, bottomFirmsSpec]
  have hfe : List.filter (fun p => decide (p.2 > 0))
      (stableSortBy Prod.snd (List.map (fun b => (bucketTerm b, bucketCount b)) bs)) =
      List.filter (fun p => p.2 != 0)
      (stableSortBy Prod.snd (List.map (fun b => (bucketTerm b, bucketCount b)) bs)) := by
    refine List.filter_congr ?_
    intro p hp
    obtain ⟨b, hb, rfl⟩ := List.mem_map.1 (mem_stableSortBy.1 hp)
    have h0 := hpos b hb
    by_cases hz : bucketCount b = 0
    · simp [hz]
    · have hlt : 0 < bucketCount b := lt_of_le_of_ne h0 (Ne.symm hz)
      simp [hz, hlt]
  rw [hfe]

/-- C5: for every bucket sequence of the firm facet call (whose counts are
    non-negative, per the remote contract), the `bottomFirms` metric is the
    ascending stable sort with zero counts excluded, truncated to
    `bottomFirmsLimit`. -/
theorem C5_bottomFirms (client : Client) (bs : List Val) (lim : Int) (thisYear : Int)
    (hbk : client.countBuckets "recalling_firm" Option.none = .ok bs)
    (hlo : 1 ≤ lim) (hhi : lim ≤ 10)
    (hpos : ∀ b ∈ bs, 0 ≤ bucketCount b) :
    get_recall_stats_handler
        [("stats", Val.list [Val.str "bottomFirms"]), ("bottomFirmsLimit", Val.int lim)]
        client thisYear =
      .ok ([("bottomFirms", Val.list (bottomFirmsSpec bs lim.toNat))],
           [RemoteCall.count "recalling_firm" Option.none]) := by
  have hcp : classPart ["bottomFirms"] client = .ok ([], []) := rfl
  have hyp : yearPart ["bottomFirms"]
      [("stats", Val.list [Val.str "bottomFirms"]), ("bottomFirmsLimit", Val.int lim)]
      client thisYear = ([], []) := rfl
  have hstE : statsOfE [("stats", Val.list [Val.str "bottomFirms"]),
      ("bottomFirmsLimit", Val.int lim)] = .ok ["bottomFirms"] := rfl
  have hclE : pyGetStrE [("stats", Val.list [Val.str "bottomFirms"]),
      ("bottomFirmsLimit", Val.int lim)] "classification" = .ok "" := rfl
  have hcontFT : (["bottomFirms"].contains "firmTotal") = false := rfl
  simp only [get_recall_stats_handler, hstE, hclE, hcp, hyp, hcontFT, Bool.false_eq_true,
    if_false, ne_eq, not_true_eq_false, show pyStrip "" = "" from rfl]
  rw [firmsPart_bottom client bs lim hbk hlo hhi hpos]
  simp

/-- Witness for C5: the spec's concrete instance — buckets
    `[{A,5},{B,0},{C,2}]`, `bottomFirmsLimit=10` — yields `[{C,2},{A,5}]`. -/
theorem C5_witness :
    get_recall_stats_handler
        [("stats", Val.list [Val.str "bottomFirms"]), ("bottomFirmsLimit", Val.int 10)]
        sampleClient 2024 =
      .ok ([("bottomFirms",
             Val.list [Val.obj [("firm", Val.str "C"), ("count", Val.int 2)],
                       Val.obj [("firm", Val.str "A"), ("count", Val.int 5)]])],
           [RemoteCall.count "recalling_firm" Option.none]) :=
  Eq.trans (C5_bottomFirms sampleClient sampleBuckets 10 2024 rfl (by decide) (by decide)
    (by decide)) (by rfl)

-- ---------------------------------------------------------------------------
-- C9
-- ---------------------------------------------------------------------------

/-- C9: with `byYear` requested, the handler succeeds for **every** client —
    the per-year mapping covers each year of the resolved range in order, a
    failed per-year call is recorded as count 0, and the failure is never
    surfaced. -/
theorem C9_byYear_recovery (client : Client) (sv ev : Val) (thisYear a b : Int)
    (hab : resolveYears [("stats", Val.list [Val.str "byYear"]), ("startYear", sv),
      ("endYear", ev)] thisYear = (a, b)) :
    get_recall_stats_handler
        [("stats", Val.list [Val.str "byYear"]), ("startYear", sv), ("endYear", ev)]
        client thisYear =
      .ok ([("recallsByYear",
             Val.obj ((yearCounts client a b).map (fun p => (p.1, Val.int p.2))))],
           (intRange a b).map (fun y => RemoteCall.search (yearCall y))) ∧
    (∀ y ∈ intRange a b,
       (toString y, Val.int (match client.search (yearCall y) with
                             | .ok d => extractTotal d
                             | .error _ => 0))
         ∈ (yearCounts client a b).map (fun p => (p.1, Val.int p.2))) ∧
    (∀ y ∈ intRange a b, client.search (yearCall y) = .error () →
       (toString y, Val.int 0)
         ∈ (yearCounts client a b).map (fun p => (p.1, Val.int p.2))) := by
  refine ⟨?_, ?_, ?_⟩
  · have hstE : statsOfE [("stats", Val.list [Val.str "byYear"]), ("startYear", sv),
        ("endYear", ev)] = .ok ["byYear"] := rfl
    have hcp : classPart ["byYear"] client = .ok ([], []) := rfl
    have hfp : firmsPart ["byYear"] ""
        [("stats", Val.list [Val.str "byYear"]), ("startYear", sv), ("endYear", ev)]
        client = .ok ([], []) := rfl
    have hclE : pyGetStrE [("stats", Val.list [Val.str "byYear"]),
        ("startYear", sv), ("endYear", ev)] "classification" = .ok "" := rfl
    have hcontFT : (["byYear"].contains "firmTotal") = false := rfl
    simp only [get_recall_stats_handler, hstE, hcp, hclE, hfp, hcontFT,
      show pyStrip "" = "" from rfl,
      Bool.false_eq_true, if_false, yearPart,
      show (["byYear"].contains "byYear" || ["byYear"].contains "mostYear"
            || ["byYear"].contains "leastYear") = true from rfl, if_true,
      show (["byYear"].contains "byYear") = true from rfl,
      show (["byYear"].contains "mostYear") = false from rfl,
      show (["byYear"].contains "leastYear") = false from rfl,
      hab, Bool.false_and, Bool.true_or, Bool.or_false, List.nil_append, List.append_nil]
  · intro y hy
    refine List.mem_map.2 ⟨(toString y, match client.search (yearCall y) with
                            | .ok d => extractTotal d
                            | .error _ => 0), ?_, rfl⟩
    exact List.mem_map.2 ⟨y, hy, rfl⟩
  · intro y hy herr
    refine List.mem_map.2 ⟨(toString y, 0), ?_, rfl⟩
    refine List.mem_map.2 ⟨y, hy, ?_⟩
    simp [herr]

/-- Witness for C9: a client failing exactly on the 2023 probe still yields a
    full 2020–2023 mapping with 2023 recorded as 0. -/
theorem C9_witness :
    ("2023", Val.int 0)
      ∈ (yearCounts flakyClient 2020 2023).map (fun p => (p.1, Val.int p.2)) :=
  (C9_byYear_recovery flakyClient (Val.int 2020) (Val.int 2023) 2024 2020 2023 rfl).2.2
    2023 (by decide) rfl

-- ---------------------------------------------------------------------------
-- C4
-- ---------------------------------------------------------------------------

/-- `len(payload.get("recalls", []) or [])` on a handler payload is the length
    of its recalls list. -/
theorem recallsCount_payload (L : List Val) (m : Val) :
    recallsCount [("recalls", Val.list L), ("meta", m)] = L.length := by
  cases L <;> simp [recallsCount, alookup, List.find?, pyOr, truthy]

/-- The fallback's "last 5" fetch, evaluated against an arbitrary successful
    search response. -/
theorem search_handler_last5 (client : Client) (data : Val)
    (hsearch : client.search ⟨Option.none, Option.none, 5, 0,
        some "recall_initiation_date:desc"⟩ = .ok data) :
    search_recalls_handler
        [("limit", Val.int 5), ("sort", Val.str "recall_initiation_date:desc")] client =
      .ok ([("recalls", Val.list (((resultsOf data).map
               (fun r => normalize_recall (asRecord r))).map Val.obj)),
            ("meta", vGetD data "meta" (Val.obj []))],
           [RemoteCall.search ⟨Option.none, Option.none, 5, 0,
              some "recall_initiation_date:desc"⟩]) := by
  have hred : search_recalls_handler
      [("limit", Val.int 5), ("sort", Val.str "recall_initiation_date:desc")] client =
      (match client.search ⟨Option.none, Option.none, 5, 0,
          some "recall_initiation_date:desc"⟩ with
       | .error e => .error e
       | .ok d => .ok ([("recalls", Val.list (((resultsOf d).map
                           (fun r => normalize_recall (asRecord r))).map Val.obj)),
                        ("meta", vGetD d "meta" (Val.obj []))],
                       [RemoteCall.search ⟨Option.none, Option.none, 5, 0,
                          some "recall_initiation_date:desc"⟩])) := rfl
  rw [hred, hsearch]

/-- Reassociation of the concrete answer template around the count. -/
theorem last5_answer (X : String) :
    "Last " ++ toString (5 : Int) ++ " recalls (newest first). Found " ++ X ++ "." =
      "Last 5 recalls (newest first). Found " ++ X ++ "." := by
  cases X with
  | mk xd => rfl

/-- C4: for the question "last 5 recalls", when the model's first turn has no
    tool calls, fallback rule 1 fires — the loop issues exactly the
    `limit=5, sort="recall_initiation_date:desc"` search and answers
    "Last 5 recalls (newest first). Found <count>." with the payload's recall
    count. -/
theorem C4_last5_fallback (model : Nat → Turn) (client : Client) (clock : Clock)
    (data : Val)
    (hmodel : (model 0).functionCalls = [])
    (hsearch : client.search ⟨Option.none, Option.none, 5, 0,
        some "recall_initiation_date:desc"⟩ = .ok data) :
    run_conversation model client clock "last 5 recalls" =
      .ok ⟨"Last 5 recalls (newest first). Found " ++
             toString ((resultsOf data).length) ++ ".",
           some [("recalls", Val.list (((resultsOf data).map
                    (fun r => normalize_recall (asRecord r))).map Val.obj)),
                 ("meta", vGetD data "meta" (Val.obj []))],
           0, [],
           [RemoteCall.search ⟨Option.none, Option.none, 5, 0,
              some "recall_initiation_date:desc"⟩]⟩ := by
  rcases h0 : model 0 with ⟨fcs, txt⟩
  rw [h0] at hmodel
  simp only at hmodel
  subst hmodel
  simp only [run_conversation, loopAux, h0]
  have hfb : fallbackAnswer client clock "last 5 recalls" txt Option.none 0 [] [] =
      (match search_recalls_handler [("limit", Val.int 5),
          ("sort", Val.str "recall_initiation_date:desc")] client with
       | .error e => .error e
       | .ok (payload, calls) =>
           .ok ⟨"Last " ++ toString (5 : Int) ++ " recalls (newest first). Found " ++
                  toString (recallsCount payload) ++ ".",
                some payload, 0, [], [] ++ calls⟩) := rfl
  rw [hfb, search_handler_last5 client data hsearch]
  dsimp only
  rw [recallsCount_payload]
  simp only [List.length_map, List.nil_append]
  rw [last5_answer]

/-- A model that never proposes a tool call. -/
def silentModel : Nat → Turn := fun _ => ⟨[], "no tools"⟩

/-- Witness for C4 at a concrete silent model and fixed remote data. -/
theorem C4_witness :
    run_conversation silentModel sampleClient sampleClock "last 5 recalls" =
      .ok ⟨"Last 5 recalls (newest first). Found " ++
             toString ((resultsOf sampleData).length) ++ ".",
           some [("recalls", Val.list (((resultsOf sampleData).map
                    (fun r => normalize_recall (asRecord r))).map Val.obj)),
                 ("meta", vGetD sampleData "meta" (Val.obj []))],
           0, [],
           [RemoteCall.search ⟨Option.none, Option.none, 5, 0,
              some "recall_initiation_date:desc"⟩]⟩ :=
  C4_last5_fallback silentModel sampleClient sampleClock sampleData rfl rfl


/-- A remote oracle on which every call succeeds (the failure-free regime the
    round-budget claim quantifies over). -/
def ClientOk (client : Client) : Prop :=
  (∀ c, ∃ v, client.search c = .ok v) ∧
  (∀ f s, ∃ bs, client.countBuckets f s = .ok bs)

/-- Well-formedness of a value read at an uncaught `int()` site (tools.py
    lines 29, 88, 90): a truthy value must be int-coercible — a falsy one is
    replaced by the integer default before the coercion. -/
def intSiteOk (v : Val) : Bool :=
  !truthy v || (match pyIntE v with
                | Except.ok _ => true
                | Except.error _ => false)

/-- Well-formedness of a value read at an uncaught `.strip()` site (tools.py
    lines 10, 53, 59): a truthy value must be a string. -/
def strSiteOk : Val → Bool
  | .str _ => true
  | v => !truthy v

/-- Well-formedness of the `stats` argument (tools.py lines 44–46): of our
    value universe only a truthy int is non-iterable. -/
def statsSiteOk : Val → Bool
  | .int n => n == 0
  | _ => true

/-- Well-formedness of one proposed argument binding: the uncaught coercion
    of its read site, if any, succeeds. -/
def argValOk (k : String) (v : Val) : Bool :=
  (if (k == "skip" || k == "topFirmsLimit" || k == "bottomFirmsLimit")
   then intSiteOk v else true) &&
  ((if (k == "firm" || k == "classification") then strSiteOk v else true) &&
   (if (k == "stats") then statsSiteOk v else true))

/-- Argument sets on which no uncaught `int()` / `.strip()` / iteration
    raise fires in the tool handlers: every binding is well-formed at its
    read site.  Keys without such a site are unconstrained. -/
def ArgsOk (args : List (String × Val)) : Bool :=
  args.all (fun kv => argValOk kv.1 kv.2)

theorem argValOk_of_ArgsOk {args : List (String × Val)} (h : ArgsOk args = true)
    {k : String} {v : Val} (hv : alookup args k = some v) : argValOk k v = true := by
  unfold alookup at hv
  cases hf : args.find? (fun p => p.1 == k) with
  | none => rw [hf] at hv; cases hv
  | some p =>
      rw [hf] at hv
      simp only [Option.map_some'] at hv
      injection hv with hv
      have hpk : p.1 = k := by
        have h1 := List.find?_some hf
        simpa using h1
      have hmem := List.mem_of_find?_eq_some hf
      have hall := List.all_eq_true.1 h p hmem
      rw [← hpk, ← hv]
      exact hall

theorem intSiteOk_of_argValOk {k : String} {v : Val}
    (hk : (k == "skip" || k == "topFirmsLimit" || k == "bottomFirmsLimit") = true)
    (h : argValOk k v = true) : intSiteOk v = true := by
  unfold argValOk at h
  rw [if_pos hk, Bool.and_eq_true] at h
  exact h.1

theorem strSiteOk_of_argValOk {k : String} {v : Val}
    (hk : (k == "firm" || k == "classification") = true)
    (h : argValOk k v = true) : strSiteOk v = true := by
  unfold argValOk at h
  rw [if_pos hk, Bool.and_eq_true] at h
  have h2 := h.2
  rw [Bool.and_eq_true] at h2
  exact h2.1

theorem statsSiteOk_of_argValOk {v : Val} (h : argValOk "stats" v = true) :
    statsSiteOk v = true := by
  unfold argValOk at h
  rw [if_pos (show (("stats" : String) == "stats") = true from rfl),
    Bool.and_eq_true] at h
  have h2 := h.2
  rw [Bool.and_eq_true] at h2
  exact h2.2

theorem truthy_false_of_strSiteOk {v : Val} (h : strSiteOk v = true)
    (hne : ∀ s, v ≠ Val.str s) : truthy v = false := by
  cases v with
  | str s => exact absurd rfl (hne s)
  | none => rfl
  | int n =>
      have h2 : (!truthy (Val.int n)) = true := h
      cases htv : truthy (Val.int n)
      · rfl
      · rw [htv] at h2; exact absurd h2 (by decide)
  | list l =>
      have h2 : (!truthy (Val.list l)) = true := h
      cases htv : truthy (Val.list l)
      · rfl
      · rw [htv] at h2; exact absurd h2 (by decide)
  | obj l =>
      have h2 : (!truthy (Val.obj l)) = true := h
      cases htv : truthy (Val.obj l)
      · rfl
      · rw [htv] at h2; exact absurd h2 (by decide)

theorem ArgsOk_append {a b : List (String × Val)} (ha : ArgsOk a = true)
    (hb : ArgsOk b = true) : ArgsOk (a ++ b) = true := by
  unfold ArgsOk at ha hb ⊢
  rw [List.all_append, ha, hb]
  rfl

/-- On well-formed arguments, the uncaught `int()` sites with a
    `(args.get(k) or d)`-shaped operand succeed. -/
theorem pyIntE_site_ok {args : List (String × Val)} (h : ArgsOk args = true)
    (k : String)
    (hk : (k == "skip" || k == "topFirmsLimit" || k == "bottomFirmsLimit") = true)
    (d : Int) :
    ∃ n, pyIntE (pyOr ((alookup args k).getD (Val.int d)) (Val.int d)) = .ok n := by
  cases hv : alookup args k with
  | none =>
      refine ⟨d, ?_⟩
      show pyIntE (pyOr (Val.int d) (Val.int d)) = Except.ok d
      simp only [pyOr, ite_self]
      rfl
  | some v =>
      have hint := intSiteOk_of_argValOk hk (argValOk_of_ArgsOk h hv)
      show ∃ n, pyIntE (pyOr v (Val.int d)) = Except.ok n
      simp only [pyOr]
      cases ht : truthy v with
      | false => exact ⟨d, rfl⟩
      | true =>
          have hint2 : (!truthy v ||
              (match pyIntE v with
               | Except.ok _ => true
               | Except.error _ => false)) = true := hint
          rw [ht] at hint2
          simp only [Bool.not_true, Bool.false_or] at hint2
          cases hpe : pyIntE v with
          | error e => rw [hpe] at hint2; simp at hint2
          | ok n => exact ⟨n, hpe⟩

/-- On well-formed arguments, the uncaught `.strip()` sites succeed and agree
    with the total read. -/
theorem pyGetStrE_ok_of_ArgsOk {args : List (String × Val)} (h : ArgsOk args = true)
    (k : String) (hk : (k == "firm" || k == "classification") = true) :
    pyGetStrE args k = .ok (pyGetStr args k) := by
  cases hv : alookup args k with
  | none => simp only [pyGetStrE, pyGetStr, hv]
  | some v =>
      have hstr := strSiteOk_of_argValOk hk (argValOk_of_ArgsOk h hv)
      cases v with
      | str s =>
          rw [pyGetStrE_str hv]
          simp only [pyGetStr, hv]
      | none =>
          simp only [pyGetStrE, pyGetStr, hv,
            show truthy Val.none = false from rfl, Bool.false_eq_true, if_false]
      | int n =>
          have ht : truthy (Val.int n) = false :=
            truthy_false_of_strSiteOk hstr (fun s hs => Val.noConfusion hs)
          simp only [pyGetStrE, pyGetStr, hv, ht, Bool.false_eq_true, if_false]
      | list l =>
          have ht : truthy (Val.list l) = false :=
            truthy_false_of_strSiteOk hstr (fun s hs => Val.noConfusion hs)
          simp only [pyGetStrE, pyGetStr, hv, ht, Bool.false_eq_true, if_false]
      | obj l =>
          have ht : truthy (Val.obj l) = false :=
            truthy_false_of_strSiteOk hstr (fun s hs => Val.noConfusion hs)
          simp only [pyGetStrE, pyGetStr, hv, ht, Bool.false_eq_true, if_false]

/-- On well-formed arguments, iterating the `stats` argument succeeds. -/
theorem statsOfE_ok_of_ArgsOk {args : List (String × Val)} (h : ArgsOk args = true) :
    statsOfE args = .ok (statsOf args) := by
  cases hv : alookup args "stats" with
  | none =>
      unfold statsOfE
      rw [hv]
      rfl
  | some v =>
      have hst := statsSiteOk_of_argValOk (argValOk_of_ArgsOk h hv)
      unfold statsOfE
      rw [hv]
      cases v with
      | none => rfl
      | int n =>
          have hn : (n == 0) = true := hst
          have hn2 : n = 0 := by simpa using hn
          subst hn2
          rfl
      | str s =>
          show (match pyOr (Val.str s) (Val.list []) with
                | Val.int _ => Except.error ()
                | _ => Except.ok (statsOf args)) = Except.ok (statsOf args)
          simp only [pyOr]
          cases ht : truthy (Val.str s) <;> rfl
      | list l =>
          show (match pyOr (Val.list l) (Val.list []) with
                | Val.int _ => Except.error ()
                | _ => Except.ok (statsOf args)) = Except.ok (statsOf args)
          simp only [pyOr]
          cases ht : truthy (Val.list l) <;> rfl
      | obj l =>
          show (match pyOr (Val.obj l) (Val.list []) with
                | Val.int _ => Except.error ()
                | _ => Except.ok (statsOf args)) = Except.ok (statsOf args)
          simp only [pyOr]
          cases ht : truthy (Val.obj l) <;> rfl

/-- On well-formed arguments, assembling the search call raises nothing. -/
theorem searchArgsCall_ok {args : List (String × Val)} (h : ArgsOk args = true) :
    ∃ call, searchArgsCall args = .ok call := by
  obtain ⟨n, hn⟩ := pyIntE_site_ok h "skip" rfl 0
  unfold searchArgsCall
  rw [pyGetStrE_ok_of_ArgsOk h "firm" rfl, hn]
  exact ⟨_, rfl⟩

/-- The intent-correction layer preserves argument well-formedness: its
    rewrite rules emit string-, list- and int-valued bindings at the
    restricted keys, and otherwise it forwards the model arguments. -/
theorem correctIntent_argsOk (question name : String) {args : List (String × Val)}
    (h : ArgsOk args = true) :
    ArgsOk (correctIntent question name args).2 = true := by
  have hclass : ∀ a : List (String × Val), ArgsOk a = true → ∀ c : String,
      ArgsOk (a ++ [("classification", Val.str c)]) = true :=
    fun a ha c => ArgsOk_append ha rfl
  simp only [correctIntent]
  by_cases h1 : (name == "get_recall_stats" && hasSub (pyLower question) "how many" &&
      hasSub (pyLower question) "firm") = true
  · rw [if_pos h1]
    by_cases h2 : (hasSub (pyLower question) "least" ||
        hasSub (pyLower question) "fewest") = true
    · rw [if_pos h2]
      cases hm : firmListMatch (pyLower question) with
      | some g => rfl
      | none =>
          cases hcl : classHint (pyLower question) with
          | some c => refine hclass _ ?_ c; rfl
          | none => rfl
    · rw [if_neg h2]
      cases hm : firmListMatch (pyLower question) with
      | some g => rfl
      | none =>
          cases hcl : classHint (pyLower question) with
          | some c => refine hclass _ ?_ c; rfl
          | none => rfl
  · rw [if_neg h1]
    by_cases h2 : (hasSub (pyLower question) "least" ||
        hasSub (pyLower question) "fewest") = true
    · rw [if_pos h2]
      cases hm : firmListMatch (pyLower question) with
      | some g => rfl
      | none =>
          cases hcl : classHint (pyLower question) with
          | some c => refine hclass _ ?_ c; rfl
          | none => rfl
    · rw [if_neg h2]
      cases hm : firmListMatch (pyLower question) with
      | some g => rfl
      | none => exact h

theorem search_handler_ok {client : Client} (h : ClientOk client)
    {args : List (String × Val)} (hargs : ArgsOk args = true) :
    ∃ r, search_recalls_handler args client = .ok r := by
  obtain ⟨call, hcall⟩ := searchArgsCall_ok hargs
  obtain ⟨v, hv⟩ := h.1 call
  simp only [search_recalls_handler, hcall, hv]
  exact ⟨_, rfl⟩

theorem classPart_ok {client : Client} (h : ClientOk client) (stats : List String) :
    ∃ r, classPart stats client = .ok r := by
  simp only [classPart]
  by_cases hc : (stats.contains "byClassification" || stats.contains "total") = true
  · rw [if_pos hc]
    obtain ⟨bs, hbs⟩ := h.2 "classification" Option.none
    rw [hbs]
    exact ⟨_, rfl⟩
  · rw [if_neg hc]
    exact ⟨_, rfl⟩

theorem firmsPart_ok {client : Client} (h : ClientOk client) (stats : List String)
    (cf : String) {args : List (String × Val)} (hargs : ArgsOk args = true) :
    ∃ r, firmsPart stats cf args client = .ok r := by
  by_cases hc : (stats.contains "topFirms" || stats.contains "bottomFirms") = true
  · obtain ⟨n1, hn1⟩ := pyIntE_site_ok hargs "topFirmsLimit" rfl 5
    obtain ⟨n2, hn2⟩ := pyIntE_site_ok hargs "bottomFirmsLimit" rfl (clamp110 n1)
    obtain ⟨bs, hbs⟩ := h.2 "recalling_firm" (firmsSearchClause cf)
    simp only [firmsPart, hc, if_true, hn1, hn2, hbs]
    exact ⟨_, rfl⟩
  · refine ⟨([], []), ?_⟩
    simp only [firmsPart]
    rw [if_neg hc]

theorem stats_handler_ok {client : Client} (h : ClientOk client)
    {args : List (String × Val)} (hargs : ArgsOk args = true) (thisYear : Int) :
    ∃ r, get_recall_stats_handler args client thisYear = .ok r := by
  have hstE := statsOfE_ok_of_ArgsOk hargs
  have hclE := pyGetStrE_ok_of_ArgsOk hargs "classification" rfl
  have hfE := pyGetStrE_ok_of_ArgsOk hargs "firm" rfl
  obtain ⟨r1, hr1⟩ := classPart_ok h (statsOf args)
  obtain ⟨r2, hr2⟩ := firmsPart_ok h (statsOf args)
    (pyStrip (pyGetStr args "classification")) hargs
  simp only [get_recall_stats_handler, hstE, hclE, hfE]
  by_cases hft : ((statsOf args).contains "firmTotal") = true
  · rw [if_pos hft]
    by_cases hfirm : (pyStrip (pyGetStr args "firm")) ≠ ""
    · rw [if_pos hfirm]
      obtain ⟨v, hv⟩ := h.1 (firmTotalCall (pyStrip (pyGetStr args "firm"))
        (pyStrip (pyGetStr args "classification")))
      rw [hv]
      dsimp only
      by_cases ho : onlyFirmTotal (statsOf args) = true
      · rw [if_pos ho]
        exact ⟨_, rfl⟩
      · rw [if_neg ho, hr1, hr2]
        exact ⟨_, rfl⟩
    · rw [if_neg hfirm, hr1, hr2]
      exact ⟨_, rfl⟩
  · rw [if_neg hft, hr1, hr2]
    exact ⟨_, rfl⟩

theorem callTool_ok {client : Client} (h : ClientOk client) (name : String)
    {args : List (String × Val)} (hargs : ArgsOk args = true) (thisYear : Int) :
    ∃ p, callTool name args client thisYear = .ok p := by
  simp only [callTool]
  by_cases h1 : (name == "search_recalls") = true
  · rw [if_pos h1]; exact search_handler_ok h hargs
  · rw [if_neg h1]
    by_cases h2 : (name == "get_recall_stats") = true
    · rw [if_pos h2]; exact stats_handler_ok h hargs thisYear
    · rw [if_neg h2]; exact ⟨_, rfl⟩

theorem dispatchCalls_ok {client : Client} (clock : Clock) (q : String) (round : Nat)
    (h : ClientOk client) :
    ∀ (calls : List (String × List (String × Val))) (msgIdx : Nat),
      (∀ c ∈ calls, ArgsOk c.2 = true) →
      ∃ entries rcalls,
        dispatchCalls client clock q round calls msgIdx =
          .ok (msgIdx + calls.length, entries, rcalls) ∧
        entries.length = calls.length ∧
        ∀ e ∈ entries, e.round = round := by
  intro calls
  induction calls with
  | nil =>
      intro msgIdx _
      exact ⟨[], [], by simp [dispatchCalls], rfl, by simp⟩
  | cons c rest ih =>
      intro msgIdx hargs
      obtain ⟨name, cargs⟩ := c
      have hca : ArgsOk cargs = true := hargs (name, cargs) (List.mem_cons_self _ _)
      obtain ⟨p, hp⟩ := callTool_ok h (correctIntent q name cargs).1
        (correctIntent_argsOk q name hca) clock.year
      obtain ⟨entries, rcalls, heq, hlen, hround⟩ := ih (msgIdx + 1)
        (fun c2 hc2 => hargs c2 (List.mem_cons_of_mem _ hc2))
      obtain ⟨payload, pcalls⟩ := p
      refine ⟨⟨round, (correctIntent q name cargs).1, (correctIntent q name cargs).2,
        payload⟩ :: entries, pcalls ++ rcalls, ?_, ?_, ?_⟩
      · simp only [dispatchCalls, hp, heq]
        have : msgIdx + 1 + rest.length = msgIdx + (rest.length + 1) := by omega
        rw [this]
        rfl
      · simp [hlen]
      · intro e he
        rcases List.mem_cons.1 he with rfl | hmem
        · rfl
        · exact hround e hmem

theorem loopAux_exhaust (model : Nat → Turn) (client : Client) (clock : Clock)
    (question : String) (hok : ClientOk client)
    (hcalls : ∀ n, (model n).functionCalls ≠ [])
    (hargs : ∀ n, ∀ c ∈ (model n).functionCalls, ArgsOk c.2 = true) :
    ∀ (fuel msgIdx : Nat) (lastP : Option (List (String × Val))) (dr : Nat)
      (log : List LogEntry) (rlog : List RemoteCall),
      (∀ e ∈ log, e.round ≤ dr) →
      (0 < dr → ∃ e, log.getLast? = some e ∧ e.round = dr ∧ lastP = some e.payload) →
      ∃ out, loopAux model client clock question fuel msgIdx lastP dr log rlog = .ok out ∧
        out.answer = apologyAnswer ∧
        out.dispatchRounds = dr + fuel ∧
        (∀ e ∈ out.toolLog, e.round ≤ dr + fuel) ∧
        (0 < dr + fuel →
          ∃ e, out.toolLog.getLast? = some e ∧ e.round = dr + fuel ∧
            out.data = some e.payload) := by
  intro fuel
  induction fuel with
  | zero =>
      intro msgIdx lastP dr log rlog hle hlast
      refine ⟨⟨apologyAnswer, lastP, dr, log, rlog⟩, rfl, rfl, rfl, ?_, ?_⟩
      · simpa using hle
      · simpa using hlast
  | succ fuel ih =>
      intro msgIdx lastP dr log rlog hle hlast
      cases hturn : (model msgIdx).functionCalls with
      | nil => exact absurd hturn (hcalls msgIdx)
      | cons fc fcs =>
          obtain ⟨entries, rcalls, hdisp, hlen, hround⟩ :=
            dispatchCalls_ok clock question (dr + 1) hok (fc :: fcs) msgIdx
              (fun c2 hc2 => hargs msgIdx c2 (by rw [hturn]; exact hc2))
          have hne : entries ≠ [] := by
            intro h
            rw [h] at hlen
            simp at hlen
          cases hgl : entries.getLast? with
          | none =>
              exact absurd (List.getLast?_eq_none_iff.1 hgl) hne
          | some el =>
              have helmem : el ∈ entries := List.mem_of_getLast?_eq_some hgl
              have helr : el.round = dr + 1 := hround el helmem
              simp only [loopAux, hturn, hdisp, hgl]
              obtain ⟨out, h1, h2, h3, h4, h5⟩ := ih (msgIdx + (fc :: fcs).length)
                (some el.payload) (dr + 1) (log ++ entries) (rlog ++ rcalls)
                (by
                  intro e he
                  rcases List.mem_append.1 he with hmem | hmem
                  · have := hle e hmem
                    omega
                  · have := hround e hmem
                    omega)
                (by
                  intro _
                  refine ⟨el, ?_, helr, rfl⟩
                  rw [List.getLast?_append_of_ne_nil log hne]
                  exact hgl)
              refine ⟨out, h1, h2, by omega, ?_, ?_⟩
              · intro e he
                have := h4 e he
                omega
              · intro _
                obtain ⟨e, he1, he2, he3⟩ := h5 (by omega)
                exact ⟨e, he1, by omega, he3⟩

/-- C3: when the model proposes at least one tool call on every turn — with
    well-formed arguments, so that no uncaught `int()`/`.strip()`/iteration
    raise escapes a handler — and every remote call succeeds, the loop
    performs exactly 5 dispatch rounds (a sixth is impossible), answers with
    the generic apology, and pairs it with the payload of the last tool call
    executed in round 5. -/
theorem C3_round_budget (model : Nat → Turn) (client : Client) (clock : Clock)
    (question : String) (hok : ClientOk client)
    (hcalls : ∀ n, (model n).functionCalls ≠ [])
    (hargs : ∀ n, ∀ c ∈ (model n).functionCalls, ArgsOk c.2 = true) :
    ∃ out, run_conversation model client clock question = .ok out ∧
      out.answer = apologyAnswer ∧
      out.dispatchRounds = 5 ∧
      (∀ e ∈ out.toolLog, e.round ≤ 5) ∧
      (∃ e, out.toolLog.getLast? = some e ∧ e.round = 5 ∧ out.data = some e.payload) := by
  obtain ⟨out, h1, h2, h3, h4, h5⟩ :=
    loopAux_exhaust model client clock question hok hcalls hargs 5 0 Option.none 0 [] []
      (by simp) (fun h => absurd h (lt_irrefl 0))
  exact ⟨out, h1, h2, by simpa using h3, by simpa using h4, by simpa using h5 (by omega)⟩

/-- A model that proposes one search call on every turn. -/
def busyModel : Nat → Turn := fun _ => ⟨[("search_recalls", [("limit", Val.int 2)])], ""⟩

/-- Witness for C3 at a concrete always-calling model and total client. -/
theorem C3_witness :
    ∃ out, run_conversation busyModel sampleClient sampleClock "hello" = .ok out ∧
      out.answer = apologyAnswer ∧
      out.dispatchRounds = 5 ∧
      (∀ e ∈ out.toolLog, e.round ≤ 5) ∧
      (∃ e, out.toolLog.getLast? = some e ∧ e.round = 5 ∧ out.data = some e.payload) :=
  C3_round_budget busyModel sampleClient sampleClock "hello"
    ⟨fun _ => ⟨sampleData, rfl⟩, fun _ _ => ⟨sampleBuckets, rfl⟩⟩
    (fun _ => by simp [busyModel])
    (fun _ c hc => by
      simp only [busyModel, List.mem_singleton] at hc
      subst hc
      rfl)

/-- The keys the amended C8 predicts: one key per requested metric, in the
    handler's emission order, plus `firm` when `firmTotal` is requested and
    the firm argument is non-blank after stripping. -/
def expectedKeys (args : List (String × Val)) : List String :=
  let stats := statsOf args
  (if stats.contains "firmTotal" then
     (if pyStrip (pyGetStr args "firm") ≠ "" then ["firmTotal", "firm"] else ["firmTotal"])
   else []) ++
  (if stats.contains "byClassification" then ["recallsByClassification"] else []) ++
  (if stats.contains "total" then ["totalRecalls"] else []) ++
  (if stats.contains "topFirms" then ["topFirms"] else []) ++
  (if stats.contains "bottomFirms" then ["bottomFirms"] else []) ++
  (if stats.contains "byYear" then ["recallsByYear"] else []) ++
  (if stats.contains "mostYear" then ["mostYear"] else []) ++
  (if stats.contains "leastYear" then ["leastYear"] else [])

theorem contains_false_of_onlyFirmTotal {l : List String} {k : String}
    (h : onlyFirmTotal l = true) (hk : k ≠ "firmTotal") : l.contains k = false := by
  rw [onlyFirmTotal, Bool.and_eq_true] at h
  by_contra hc
  rw [Bool.not_eq_false] at hc
  have hmem : k ∈ l := by simpa using hc
  have := List.all_eq_true.1 h.2 k hmem
  simp only [beq_iff_eq] at this
  exact hk this

theorem resolveYears_le (args : List (String × Val)) (thisYear : Int) :
    (resolveYears args thisYear).1 ≤ (resolveYears args thisYear).2 := by
  unfold resolveYears
  split
  · rename_i sy ey
    split
    · simp
    · rename_i hgt
      simp only
      omega
  · simp

theorem intRange_ne_nil {a b : Int} (h : a ≤ b) : intRange a b ≠ [] := by
  intro hnil
  have hlen := congrArg List.length hnil
  simp only [intRange, List.length_map, List.length_range, List.length_nil] at hlen
  omega

theorem foldl_some {α : Type} (step : Option α → α → Option α)
    (hstep : ∀ a x, ∃ b, step (some a) x = some b) :
    ∀ (xs : List α) (a : α), ∃ m, xs.foldl step (some a) = some m := by
  intro xs
  induction xs with
  | nil => intro a; exact ⟨a, rfl⟩
  | cons y ys ih =>
      intro a
      obtain ⟨b, hb⟩ := hstep a y
      rw [List.foldl_cons, hb]
      exact ih b

theorem pyMaxBySnd_isSome {l : List (String × Int)} (h : l ≠ []) :
    ∃ m, pyMaxBySnd l = some m := by
  cases l with
  | nil => exact absurd rfl h
  | cons x xs =>
      rw [pyMaxBySnd, List.foldl_cons]
      exact foldl_some _ (fun a y => by
        dsimp only
        by_cases hgt : y.2 > a.2
        · exact ⟨y, by rw [if_pos hgt]⟩
        · exact ⟨a, by rw [if_neg hgt]⟩) xs x

theorem pyMinBySnd_isSome {l : List (String × Int)} (h : l ≠ []) :
    ∃ m, pyMinBySnd l = some m := by
  cases l with
  | nil => exact absurd rfl h
  | cons x xs =>
      rw [pyMinBySnd, List.foldl_cons]
      exact foldl_some _ (fun a y => by
        dsimp only
        by_cases hlt : y.2 < a.2
        · exact ⟨y, by rw [if_pos hlt]⟩
        · exact ⟨a, by rw [if_neg hlt]⟩) xs x

theorem classPart_keys {stats : List String} {client : Client}
    {rt : List (String × Val) × List RemoteCall}
    (h : classPart stats client = .ok rt) :
    rt.1.map Prod.fst =
      (if stats.contains "byClassification" then ["recallsByClassification"] else []) ++
      (if stats.contains "total" then ["totalRecalls"] else []) ∧
    ∀ kv ∈ rt.1, kv.2 ≠ Val.none := by
  simp only [classPart] at h
  by_cases hc : (stats.contains "byClassification" || stats.contains "total") = true
  · rw [if_pos hc] at h
    cases hbs : client.countBuckets "classification" Option.none with
    | error e => rw [hbs] at h; cases h
    | ok buckets =>
        rw [hbs] at h
        injection h with h
        subst h
        constructor
        · by_cases h1 : "byClassification" ∈ stats <;>
            by_cases h2 : "total" ∈ stats <;>
              simp [h1, h2]
        · intro kv hkv
          simp at hkv
          rcases hkv with ⟨_, rfl⟩ | ⟨_, rfl⟩ <;> simp
  · rw [if_neg hc] at h
    injection h with h
    subst h
    simp only [Bool.or_eq_true, not_or] at hc
    have h1 : ¬ "byClassification" ∈ stats := by simpa using hc.1
    have h2 : ¬ "total" ∈ stats := by simpa using hc.2
    simp [h1, h2]

theorem firmsPart_keys {stats : List String} {cf : String} {args : List (String × Val)}
    {client : Client} {rt : List (String × Val) × List RemoteCall}
    (h : firmsPart stats cf args client = .ok rt) :
    rt.1.map Prod.fst =
      (if stats.contains "topFirms" then ["topFirms"] else []) ++
      (if stats.contains "bottomFirms" then ["bottomFirms"] else []) ∧
    ∀ kv ∈ rt.1, kv.2 ≠ Val.none := by
  simp only [firmsPart] at h
  by_cases hc : (stats.contains "topFirms" || stats.contains "bottomFirms") = true
  · rw [if_pos hc] at h
    split at h
    · cases h
    · split at h
      · cases h
      · split at h
        · cases h
        · injection h with h
          subst h
          constructor
          · by_cases h1 : "topFirms" ∈ stats <;>
              by_cases h2 : "bottomFirms" ∈ stats <;>
                simp [h1, h2]
          · intro kv hkv
            simp at hkv
            rcases hkv with ⟨_, rfl⟩ | ⟨_, rfl⟩ <;> simp
  · rw [if_neg hc] at h
    injection h with h
    subst h
    simp only [Bool.or_eq_true, not_or] at hc
    have h1 : ¬ "topFirms" ∈ stats := by simpa using hc.1
    have h2 : ¬ "bottomFirms" ∈ stats := by simpa using hc.2
    simp [h1, h2]

theorem yearCounts_ne_nil {client : Client} {a b : Int} (h : a ≤ b) :
    yearCounts client a b ≠ [] := by
  intro hnil
  have := congrArg List.length hnil
  simp only [yearCounts, List.length_map, List.length_nil] at this
  exact intRange_ne_nil h (List.length_eq_zero.1 this)

theorem yearPart_keys (stats : List String) (args : List (String × Val))
    (client : Client) (thisYear : Int) :
    (yearPart stats args client thisYear).1.map Prod.fst =
      (if stats.contains "byYear" then ["recallsByYear"] else []) ++
      (if stats.contains "mostYear" then ["mostYear"] else []) ++
      (if stats.contains "leastYear" then ["leastYear"] else []) ∧
    ∀ kv ∈ (yearPart stats args client thisYear).1, kv.2 ≠ Val.none := by
  have hab := resolveYears_le args thisYear
  simp only [yearPart]
  by_cases hc : (stats.contains "byYear" || stats.contains "mostYear"
      || stats.contains "leastYear") = true
  · rw [if_pos hc]
    rcases hrv : resolveYears args thisYear with ⟨a, b⟩
    rw [hrv] at hab
    dsimp only at hab ⊢
    have hne : yearCounts client a b ≠ [] := yearCounts_ne_nil hab
    have hemp : (yearCounts client a b).isEmpty = false := by
      simpa [List.isEmpty_iff] using hne
    by_cases hm : stats.contains "mostYear" = true
    · obtain ⟨mmax, hmax⟩ := pyMaxBySnd_isSome hne
      by_cases hl : stats.contains "leastYear" = true
      · obtain ⟨mmin, hmin⟩ := pyMinBySnd_isSome hne
        rw [hm, hl, hemp]
        simp only [Bool.and_true, Bool.and_false, Bool.true_and, Bool.false_and,
          Bool.not_false, if_true, hmax, hmin]
        constructor
        · by_cases h1 : "byYear" ∈ stats <;> simp [h1, hm, hl]
        · intro kv hkv
          simp at hkv
          rcases hkv with ⟨_, rfl⟩ | rfl | rfl <;> simp
      · have hl' : stats.contains "leastYear" = false := by
          simpa using hl
        rw [hm, hl', hemp]
        simp only [Bool.and_true, Bool.true_and, Bool.false_and, Bool.not_false,
          if_true, if_false, hmax]
        constructor
        · by_cases h1 : "byYear" ∈ stats <;> simp [h1, hm, hl']
        · intro kv hkv
          simp at hkv
          rcases hkv with ⟨_, rfl⟩ | rfl <;> simp
    · have hm' : stats.contains "mostYear" = false := by simpa using hm
      by_cases hl : stats.contains "leastYear" = true
      · obtain ⟨mmin, hmin⟩ := pyMinBySnd_isSome hne
        rw [hm', hl, hemp]
        simp only [Bool.and_true, Bool.true_and, Bool.false_and, Bool.not_false,
          if_true, if_false, hmin]
        constructor
        · by_cases h1 : "byYear" ∈ stats <;> simp [h1, hm', hl]
        · intro kv hkv
          simp at hkv
          rcases hkv with ⟨_, rfl⟩ | rfl <;> simp
      · have hl' : stats.contains "leastYear" = false := by simpa using hl
        rw [hm', hl', hemp]
        simp only [Bool.false_and, if_false]
        constructor
        · by_cases h1 : "byYear" ∈ stats <;> simp [h1, hm', hl']
        · intro kv hkv
          simp at hkv
          rcases hkv with ⟨_, rfl⟩
          simp
  · rw [if_neg hc]
    simp only [Bool.or_eq_true, not_or] at hc
    have h1 : ¬ "byYear" ∈ stats := by simpa using hc.1.1
    have h2 : ¬ "mostYear" ∈ stats := by simpa using hc.1.2
    have h3 : ¬ "leastYear" ∈ stats := by simpa using hc.2
    simp [h1, h2, h3]

set_option maxHeartbeats 1000000 in
/-- C8 amended: the stats result contains exactly one key per requested
    metric, in emission order, plus `firm` when `firmTotal` was requested and
    the firm argument is non-blank; no key is ever bound to null. -/
theorem C8_amended (args : List (String × Val)) (client : Client) (thisYear : Int)
    (rt : List (String × Val) × List RemoteCall)
    (h : get_recall_stats_handler args client thisYear = .ok rt) :
    rt.1.map Prod.fst = expectedKeys args ∧ ∀ kv ∈ rt.1, kv.2 ≠ Val.none := by
  have hyk := yearPart_keys (statsOf args) args client thisYear
  simp only [get_recall_stats_handler] at h
  cases hstE : statsOfE args with
  | error e => rw [hstE] at h; cases h
  | ok stats0 =>
  rw [hstE] at h
  have hstats : stats0 = statsOf args := statsOfE_ok_eq hstE
  subst hstats
  dsimp only at h
  cases hclE : pyGetStrE args "classification" with
  | error e => rw [hclE] at h; cases h
  | ok cf0 =>
  rw [hclE] at h
  have hcf : cf0 = pyGetStr args "classification" := pyGetStrE_ok_eq hclE
  subst hcf
  dsimp only at h
  by_cases hft : ((statsOf args).contains "firmTotal") = true
  · rw [if_pos hft] at h
    cases hfe : pyGetStrE args "firm" with
    | error e => rw [hfe] at h; cases h
    | ok f0 =>
    rw [hfe] at h
    have hf0 : f0 = pyGetStr args "firm" := pyGetStrE_ok_eq hfe
    subst hf0
    dsimp only at h
    by_cases hfirm : (pyStrip (pyGetStr args "firm")) ≠ ""
    · rw [if_pos hfirm] at h
      cases hcall : client.search (firmTotalCall (pyStrip (pyGetStr args "firm"))
          (pyStrip (pyGetStr args "classification"))) with
      | error e => rw [hcall] at h; cases h
      | ok data =>
        rw [hcall] at h
        dsimp only at h
        by_cases ho : onlyFirmTotal (statsOf args) = true
        · rw [if_pos ho] at h
          injection h with h
          subst h
          have hno : ∀ k, k ≠ "firmTotal" → ¬ k ∈ statsOf args :=
            fun k hk => by simpa using contains_false_of_onlyFirmTotal ho hk
          have hftm : "firmTotal" ∈ statsOf args := by simpa using hft
          constructor
          · simp [expectedKeys, hftm, hfirm, hno "byClassification" (by decide),
              hno "total" (by decide), hno "topFirms" (by decide),
              hno "bottomFirms" (by decide), hno "byYear" (by decide),
              hno "mostYear" (by decide), hno "leastYear" (by decide)]
          · intro kv hkv
            simp at hkv
            rcases hkv with rfl | rfl <;> simp
        · rw [if_neg ho] at h
          cases hcp : classPart (statsOf args) client with
          | error e => rw [hcp] at h; cases h
          | ok r1t =>
            obtain ⟨r1, t1⟩ := r1t
            rw [hcp] at h
            dsimp only at h
            cases hfp : firmsPart (statsOf args)
                (pyStrip (pyGetStr args "classification")) args client with
            | error e => rw [hfp] at h; cases h
            | ok r2t =>
              obtain ⟨r2, t2⟩ := r2t
              rw [hfp] at h
              dsimp only at h
              injection h with h
              subst h
              have hftm : "firmTotal" ∈ statsOf args := by simpa using hft
              constructor
              · simp [expectedKeys, hftm, hfirm, (classPart_keys hcp).1,
                  (firmsPart_keys hfp).1, hyk.1, List.append_assoc]
              · intro kv hkv
                simp only [List.mem_append] at hkv
                rcases hkv with ((hkv | hkv) | hkv) | hkv
                · simp at hkv
                  rcases hkv with rfl | rfl <;> simp
                · exact (classPart_keys hcp).2 kv hkv
                · exact (firmsPart_keys hfp).2 kv hkv
                · exact hyk.2 kv hkv
    · rw [if_neg hfirm] at h
      cases hcp : classPart (statsOf args) client with
      | error e => rw [hcp] at h; cases h
      | ok r1t =>
        obtain ⟨r1, t1⟩ := r1t
        rw [hcp] at h
        dsimp only at h
        cases hfp : firmsPart (statsOf args)
            (pyStrip (pyGetStr args "classification")) args client with
        | error e => rw [hfp] at h; cases h
        | ok r2t =>
          obtain ⟨r2, t2⟩ := r2t
          rw [hfp] at h
          dsimp only at h
          injection h with h
          subst h
          have hftm : "firmTotal" ∈ statsOf args := by simpa using hft
          constructor
          · simp [expectedKeys, hftm, hfirm, (classPart_keys hcp).1,
              (firmsPart_keys hfp).1, hyk.1, List.append_assoc]
          · intro kv hkv
            simp only [List.mem_append] at hkv
            rcases hkv with ((hkv | hkv) | hkv) | hkv
            · simp at hkv
              subst hkv
              simp
            · exact (classPart_keys hcp).2 kv hkv
            · exact (firmsPart_keys hfp).2 kv hkv
            · exact hyk.2 kv hkv
  · rw [if_neg hft] at h
    cases hcp : classPart (statsOf args) client with
    | error e => rw [hcp] at h; cases h
    | ok r1t =>
      obtain ⟨r1, t1⟩ := r1t
      rw [hcp] at h
      dsimp only at h
      cases hfp : firmsPart (statsOf args)
          (pyStrip (pyGetStr args "classification")) args client with
      | error e => rw [hfp] at h; cases h
      | ok r2t =>
        obtain ⟨r2, t2⟩ := r2t
        rw [hfp] at h
        dsimp only at h
        injection h with h
        subst h
        have hftm : ¬ "firmTotal" ∈ statsOf args := by simpa using hft
        constructor
        · simp [expectedKeys, hftm, (classPart_keys hcp).1,
            (firmsPart_keys hfp).1, hyk.1, List.append_assoc]
        · intro kv hkv
          simp only [List.mem_append, List.nil_append] at hkv
          rcases hkv with (hkv | hkv) | hkv
          · exact (classPart_keys hcp).2 kv hkv
          · exact (firmsPart_keys hfp).2 kv hkv
          · exact hyk.2 kv hkv

/-- C8 counterexample: with `stats=["firmTotal"]` and no firm argument the
    handler returns `{firmTotal: 0}` — the `firm` key is absent even though
    `firmTotal` was requested, refuting "plus the key firm whenever firmTotal
    was requested". -/
theorem C8_counterexample :
    ∃ rt, get_recall_stats_handler [("stats", Val.list [Val.str "firmTotal"])]
        emptyClient 2024 = .ok rt ∧
      rt.1.map Prod.fst = ["firmTotal"] ∧ alookup rt.1 "firm" = Option.none :=
  ⟨([("firmTotal", Val.int 0)], []), rfl, rfl, rfl⟩

/-- Witness for C8 at a concrete `stats=["total"]` request. -/
theorem C8_witness :
    (([("totalRecalls", Val.int 7)], [RemoteCall.count "classification" Option.none])
        : List (String × Val) × List RemoteCall).1.map Prod.fst =
      expectedKeys [("stats", Val.list [Val.str "total"])] :=
  (C8_amended [("stats", Val.list [Val.str "total"])] sampleClient 2024
    ([("totalRecalls", Val.int 7)], [RemoteCall.count "classification" Option.none]) rfl).1

end Recalls
